import Mathlib

/-!
Shallow embedding of the LAGE metadata-extraction pipeline
(RitAreaSciencePark/LAGE_Metadata_Extraction) in Lean 4, together with
theorems settling the specification claims about it.

A text file is modelled as its name plus its list of lines (line text
without the trailing newline character).  Tabular CSV content is modelled
at the level of comma-separated (or tab-separated) fields: quoting and
type inference of the pandas reader are not modelled, and numeric cell
values are handled through exact rational arithmetic in place of IEEE
floating point.  Rows shorter than the header are padded with the empty
string, which stands for a missing (NaN) cell; a row wider than the
header makes the read fail, as in the pandas C parser.
-/

namespace Lage

/-! ## Python-style string helpers -/

/-- First index at which the pattern occurs as a contiguous sublist,
scanning left to right (the behaviour of the Python substring test). -/
def findSubIdx (pat : List Char) : List Char → Option Nat
  | [] => if pat = [] then some 0 else none
  | c :: rest =>
    if pat.isPrefixOf (c :: rest) then some 0
    else (findSubIdx pat rest).map (· + 1)

/-- Python membership test for substrings: pat in s. -/
def strContainsSub (s pat : String) : Bool :=
  (findSubIdx pat.toList s.toList).isSome

/-- Part of s strictly after the first occurrence of pat
(Python s.split(pat, 1)[1]); none when pat does not occur. -/
def strAfterFirst (s pat : String) : Option String :=
  (findSubIdx pat.toList s.toList).map fun i =>
    String.mk ((s.toList).drop (i + pat.toList.length))

/-- Part of s strictly before the first occurrence of pat
(Python s.split(pat, 1)[0]); the whole string when pat does not occur. -/
def strBeforeFirst (s pat : String) : String :=
  match findSubIdx pat.toList s.toList with
  | some i => String.mk ((s.toList).take i)
  | none => s

/-- Python str.strip of a fixed character set, from both ends. -/
def pyStripChars (cs : List Char) (s : String) : String :=
  String.mk ((((s.toList.dropWhile (cs.contains ·)).reverse).dropWhile
    (cs.contains ·)).reverse)

/-- Python str.lstrip of spaces only (the pandas skipinitialspace option). -/
def pyLStripSpaces (s : String) : String :=
  String.mk (s.toList.dropWhile (· = ' '))

/-- Python str(x) for an optional string value: None prints as "None". -/
def pyStr (o : Option String) : String := o.getD "None"

/-- Python str.lower (ASCII, as in the data handled here). -/
def pyLower (s : String) : String := String.mk (s.data.map Char.toLower)

/-- Python str.upper. -/
def pyUpper (s : String) : String := String.mk (s.data.map Char.toUpper)

/-- Python str.strip(): whitespace removed from both ends. -/
def pyTrim (s : String) : String :=
  String.mk
    (((s.data.dropWhile Char.isWhitespace).reverse.dropWhile
      Char.isWhitespace).reverse)

/-- Python str.split(sep): split at every non-overlapping occurrence of
the separator, left to right. -/
def splitOnCharsAux (sep : List Char) : Nat → List Char → List (List Char)
  | 0, l => [l]
  | fuel + 1, l =>
    match findSubIdx sep l with
    | none => [l]
    | some i => l.take i :: splitOnCharsAux sep fuel (l.drop (i + sep.length))

def pySplit (s sep : String) : List String :=
  (splitOnCharsAux sep.data (s.data.length + 1) s.data).map String.mk

/-- Python str.replace: every non-overlapping occurrence, left to right. -/
def replaceCharsAux (a b : List Char) : Nat → List Char → List Char
  | 0, l => l
  | fuel + 1, l =>
    match findSubIdx a l with
    | none => l
    | some i => l.take i ++ b ++ replaceCharsAux a b fuel (l.drop (i + a.length))

def pyReplace (s a b : String) : String :=
  String.mk (replaceCharsAux a.data b.data (s.data.length + 1) s.data)

def myStartsWith (s pat : String) : Bool := pat.data.isPrefixOf s.data

def myEndsWith (s pat : String) : Bool :=
  pat.data.reverse.isPrefixOf s.data.reverse

/-- Lexicographic order on character lists by code point, the order used
by Python when sorting strings. -/
def lexLeB : List Char → List Char → Bool
  | [], _ => true
  | _ :: _, [] => false
  | a :: as, b :: bs => if a = b then lexLeB as bs else decide (a < b)

def strLeB (a b : String) : Bool := lexLeB a.data b.data

def strLe (a b : String) : Prop := strLeB a b = true

instance : DecidableRel strLe := fun a b =>
  inferInstanceAs (Decidable (strLeB a b = true))

def splitCommas (s : String) : List String := pySplit s ","

def splitTabs (s : String) : List String := pySplit s "\t"

/-! ## Python-style dictionaries as insertion-ordered association lists -/

/-- Lookup of the first binding of a key. -/
def assocLookup (m : List (String × α)) (k : String) : Option α :=
  match m with
  | [] => none
  | (k2, v) :: rest => if k2 = k then some v else assocLookup rest k

/-- Python dict assignment: replace in place when the key is present,
append otherwise (insertion order preserved). -/
def assocSet (m : List (String × α)) (k : String) (v : α) :
    List (String × α) :=
  match m with
  | [] => [(k, v)]
  | (k2, v2) :: rest =>
    if k2 = k then (k2, v) :: rest else (k2, v2) :: assocSet rest k v

/-- Python dict.update. -/
def dictUpdate (m pay : List (String × α)) : List (String × α) :=
  pay.foldl (fun acc kv => assocSet acc kv.1 kv.2) m

/-! ## Digits and number parsing -/

def allDigits (s : String) : Bool :=
  s.length > 0 && s.toList.all (·.isDigit)

def digitsToNat (s : String) : Nat :=
  s.toList.foldl (fun n c => 10 * n + (c.toNat - 48)) 0

def natFromDigits (l : List Char) : Nat :=
  l.foldl (fun n c => 10 * n + (c.toNat - 48)) 0

def spanDigits (l : List Char) : List Char × List Char :=
  (l.takeWhile (·.isDigit), l.dropWhile (·.isDigit))

/-- Exact-rational model of Python float(s) on finite decimal and
scientific notation; none models a ValueError. -/
def parseFloatQ (s : String) : Option ℚ :=
  let t := (pyTrim s).data
  let sgn : ℚ × List Char :=
    match t with
    | '-' :: r => (-1, r)
    | '+' :: r => (1, r)
    | r => (1, r)
  let ip := spanDigits sgn.2
  let fp : Option (List Char) × List Char :=
    match ip.2 with
    | '.' :: r => (some (spanDigits r).1, (spanDigits r).2)
    | r => (none, r)
  let fracDigits := fp.1.getD []
  if ip.1.isEmpty && fracDigits.isEmpty then none
  else
    let mant : ℚ :=
      (natFromDigits ip.1 : ℚ) +
        (natFromDigits fracDigits : ℚ) / ((10 : ℚ) ^ fracDigits.length)
    match fp.2 with
    | [] => some (sgn.1 * mant)
    | c :: r =>
      if c = 'e' ∨ c = 'E' then
        let esgn : Int × List Char :=
          match r with
          | '-' :: rr => (-1, rr)
          | '+' :: rr => (1, rr)
          | rr => (1, rr)
        let ed := spanDigits esgn.2
        if ed.1.isEmpty ∨ ¬ ed.2.isEmpty then none
        else some (sgn.1 * mant * (10 : ℚ) ^ (esgn.1 * (natFromDigits ed.1 : ℤ)))
      else none

/-- Python int() applied to a real value: truncation toward zero. -/
def pyInt (q : ℚ) : ℤ := if 0 ≤ q then ⌊q⌋ else ⌈q⌉

/-- Bankers rounding of a rational to the nearest integer. -/
def roundHalfEven (x : ℚ) : ℤ :=
  let f := ⌊x⌋
  if x - f < 1/2 then f
  else if 1/2 < x - f then f + 1
  else if f % 2 = 0 then f else f + 1

/-- Exact-rational model of Python round(x, 2). -/
def pyRound2 (x : ℚ) : ℚ := (roundHalfEven (x * 100) : ℚ) / 100

/-- Python sorted(list(set(l))) for strings. -/
def sortedUnique (l : List String) : List String :=
  List.insertionSort strLe l.dedup

/-! ## The pandas CSV model

read_csv with the default header row: the first non-blank line gives the
column names; every later non-blank line is a data row.  A row with more
fields than the header is a parse error (none, modelling the exception);
a shorter row is padded with empty strings (NaN cells).  A file with no
non-blank line raises EmptyDataError (none). -/

def padRow (n : Nat) (r : List String) : List String :=
  r ++ List.replicate (n - r.length) ""

def pyReadCsv (lines : List String) :
    Option (List String × List (List String)) :=
  match lines.filter (· ≠ "") with
  | [] => none
  | h :: t =>
    let header := splitCommas h
    let raw := t.map splitCommas
    if raw.all (fun r => r.length ≤ header.length) then
      some (header, raw.map (padRow header.length))
    else none

/-- read_csv with header=None: every non-blank line is a data row and the
column count is taken from the first row. -/
def pyReadCsvNoHeader (lines : List String) : Option (List (List String)) :=
  match lines.filter (· ≠ "") with
  | [] => none
  | h :: t =>
    let first := splitCommas h
    let raw := t.map splitCommas
    if raw.all (fun r => r.length ≤ first.length) then
      some (first :: raw.map (padRow first.length))
    else none

/-! ## Files -/

/-- A text file: its base name and its lines. -/
structure PyFile where
  name : String
  lines : List String

/-- Whole-file content as the join of the lines (newline separated). -/
def PyFile.content (f : PyFile) : String :=
  String.intercalate "\n" f.lines

/-! ## A model of Python JSON values -/

/-- JSON-serialisable Python values as produced by json.load. -/
inductive PyVal where
  | vstr (s : String)
  | vnum (q : ℚ)
  | vbool (b : Bool)
  | vnull
  | varr (elems : List PyVal)
  | vobj (fields : List (String × PyVal))

def skipWs : List Char → List Char
  | c :: r =>
    if c = ' ' ∨ c = '\n' ∨ c = '\t' ∨ c = '\r' then skipWs r else c :: r
  | [] => []

def jsonEscChar (c : Char) : Char :=
  if c = 'n' then '\n' else if c = 't' then '\t' else if c = 'r' then '\r'
  else c

/-- Characters of a JSON string literal after the opening quote; returns
the collected characters and the input after the closing quote. -/
def jsonStrChars : Nat → List Char → Option (List Char × List Char)
  | _, [] => none
  | 0, _ => none
  | fuel + 1, c :: r =>
    if c = '"' then some ([], r)
    else if c = '\\' then
      match r with
      | esc :: r2 =>
        (jsonStrChars fuel r2).map fun p => (jsonEscChar esc :: p.1, p.2)
      | [] => none
    else (jsonStrChars fuel r).map fun p => (c :: p.1, p.2)

/-- A JSON number (decimal mantissa with optional exponent). -/
def jsonNumber (l : List Char) : Option (ℚ × List Char) :=
  let sgn : ℚ × List Char :=
    match l with
    | '-' :: r => (-1, r)
    | r => (1, r)
  let ip := spanDigits sgn.2
  if ip.1.isEmpty then none
  else
    let fp : List Char × List Char :=
      match ip.2 with
      | '.' :: r => ((spanDigits r).1, (spanDigits r).2)
      | r => ([], r)
    let mant : ℚ :=
      (natFromDigits ip.1 : ℚ) +
        (natFromDigits fp.1 : ℚ) / ((10 : ℚ) ^ fp.1.length)
    match fp.2 with
    | 'e' :: r2 | 'E' :: r2 =>
      let esgn : Int × List Char :=
        match r2 with
        | '-' :: rr => (-1, rr)
        | '+' :: rr => (1, rr)
        | rr => (1, rr)
      let ed := spanDigits esgn.2
      if ed.1.isEmpty then none
      else some (sgn.1 * mant * (10 : ℚ) ^ (esgn.1 * (natFromDigits ed.1 : ℤ)), ed.2)
    | r2 => some (sgn.1 * mant, r2)

mutual

/-- Recursive-descent JSON value reader with explicit fuel. -/
def jsonValue : Nat → List Char → Option (PyVal × List Char)
  | 0, _ => none
  | fuel + 1, l =>
    match skipWs l with
    | [] => none
    | c :: r =>
      if c = '{' then
        (jsonMembers fuel r).map fun p => (PyVal.vobj p.1, p.2)
      else if c = '[' then
        (jsonItems fuel r).map fun p => (PyVal.varr p.1, p.2)
      else if c = '"' then
        (jsonStrChars fuel r).map fun p => (PyVal.vstr (String.mk p.1), p.2)
      else if ('t' :: 'r' :: 'u' :: 'e' :: []).isPrefixOf (c :: r) then
        some (PyVal.vbool true, (c :: r).drop 4)
      else if ('f' :: 'a' :: 'l' :: 's' :: 'e' :: []).isPrefixOf (c :: r) then
        some (PyVal.vbool false, (c :: r).drop 5)
      else if ('n' :: 'u' :: 'l' :: 'l' :: []).isPrefixOf (c :: r) then
        some (PyVal.vnull, (c :: r).drop 4)
      else
        (jsonNumber (c :: r)).map fun p => (PyVal.vnum p.1, p.2)

/-- Object members after the opening brace. -/
def jsonMembers : Nat → List Char → Option (List (String × PyVal) × List Char)
  | 0, _ => none
  | fuel + 1, l =>
    match skipWs l with
    | [] => none
    | c :: r =>
      if c = '}' then some ([], r)
      else if c = '"' then
        match jsonStrChars fuel r with
        | none => none
        | some (key, r2) =>
          match skipWs r2 with
          | ':' :: r3 =>
            match jsonValue fuel r3 with
            | none => none
            | some (v, r4) =>
              match skipWs r4 with
              | ',' :: r5 =>
                (jsonMembers fuel r5).map fun p =>
                  ((String.mk key, v) :: p.1, p.2)
              | '}' :: r5 => some ([(String.mk key, v)], r5)
              | _ => none
          | _ => none
      else none

/-- Array items after the opening bracket. -/
def jsonItems : Nat → List Char → Option (List PyVal × List Char)
  | 0, _ => none
  | fuel + 1, l =>
    match skipWs l with
    | [] => none
    | c :: r =>
      if c = ']' then some ([], r)
      else
        match jsonValue (fuel + 1) (c :: r) with
        | none => none
        | some (v, r2) =>
          match skipWs r2 with
          | ',' :: r3 => (jsonItems fuel r3).map fun p => (v :: p.1, p.2)
          | ']' :: r3 => some ([v], r3)
          | _ => none

end

/-- Model of json.loads on a whole string: the document must be a single
value followed only by whitespace. -/
def pyJsonLoads (s : String) : Option PyVal :=
  match jsonValue (s.length + 1) s.toList with
  | some (v, rest) => if (skipWs rest).isEmpty then some v else none
  | none => none

/-! ## Classification predicates (one per extractor module) -/

/-- The list comprehension with next(f): n lines are demanded and a file
with fewer lines raises StopIteration (modelled as none). -/
def readExactLines : Nat → List String → Option (List String)
  | 0, _ => some []
  | _ + 1, [] => none
  | n + 1, l :: ls => (readExactLines n ls).map (l :: ·)

/-- Extractor_BeadStudio.is_beadstudio_file: reads exactly 20 lines with
next(f) (an exception, including StopIteration on a shorter file, is
caught and yields False), lowercases and joins them, and looks for the
keyword beadstudio. -/
def is_beadstudio_file (f : PyFile) : Bool :=
  match readExactLines 20 f.lines with
  | none => false
  | some head =>
    strContainsSub (String.intercalate "\n" (head.map pyLower)) "beadstudio"

/-- Extractor_Thermal_Report.is_thermal_report: readline returns the empty
string at end of file, so short files simply fail the checks. -/
def is_thermal_report (f : PyFile) : Bool :=
  myStartsWith (pyTrim (f.lines.getD 0 "")) "Side" &&
    strContainsSub (pyTrim (f.lines.getD 2 "")) "Time,Current Cycle"

/-- Extractor_FMGeneration.is_fm_generation_report. -/
def is_fm_generation_report (f : PyFile) : Bool :=
  strContainsSub (f.lines.getD 0 "") "Instrument Name"

/-- Extractor_FMAutoTilt.is_fm_autotilt_report. -/
def is_fm_autotilt_report (f : PyFile) : Bool :=
  myStartsWith (f.lines.getD 0 "") "[FTM Through-Focus Stack"

/-- Extractor_IlluminaSampleSheet.is_illumina_samplesheet: the first 20
lines (readline, no exception on short files) must contain a lowercase
header tag, and the block between that tag and the next bracket must
mention the GenerateFASTQ workflow and Amplicon chemistry. -/
def is_illumina_samplesheet (f : PyFile) : Bool :=
  let content := String.intercalate "\n" ((f.lines.take 20).map pyLower)
  if ¬ strContainsSub content "[header]" then false
  else
    let headerBlock :=
      strBeforeFirst ((strAfterFirst content "[header]").getD "") "["
    strContainsSub headerBlock "workflow,generatefastq" &&
      strContainsSub headerBlock "chemistry,amplicon"

/-- Subtype tags produced by the nanopore validator. -/
inductive NanoType where
  | sample_sheet | pore_activity | throughput | pore_scan | temperature
  | json_report | final_summary | sequencing_summary | report_in_markdown
  | pod5_file | fastq_file | bam_file | bam_index_file
  deriving DecidableEq, Repr

/-- The late filename checks of is_nanopore_file (markdown report, pod5,
fastq, bam) that run when no earlier branch returned. -/
def nanoLateChecks (fname : String) : Option NanoType :=
  if myEndsWith fname ".md" && strContainsSub fname "report" then
    some .report_in_markdown
  else if myEndsWith fname ".pod5" then some .pod5_file
  else if myEndsWith fname ".fastq.gz" then some .fastq_file
  else if myEndsWith fname ".bam" then some .bam_file
  else if myEndsWith fname ".bam.bai" then some .bam_index_file
  else none

/-- Extractor_Nanopore.is_nanopore_file: a tagged-variant validator that
returns a subtype label (or nothing) from the lowercased file name and,
for CSV files, the lowercased first line. -/
def is_nanopore_file (f : PyFile) : Option NanoType :=
  let fname := pyLower f.name
  if myEndsWith fname ".csv" then
    let firstLine := pyLower (f.lines.getD 0 "")
    if strContainsSub firstLine "protocol_run_id" then some .sample_sheet
    else if strContainsSub firstLine "channel state" then some .pore_activity
    else if strContainsSub firstLine "experiment time" then some .throughput
    else if strContainsSub firstLine "mux_scan_assessment" then some .pore_scan
    else if strContainsSub firstLine "current_target_temperature" then
      some .temperature
    else nanoLateChecks fname
  else if myEndsWith fname ".json" && strContainsSub fname "report" then
    some .json_report
  else if myEndsWith fname ".txt" && myStartsWith fname "final_summary" then
    some .final_summary
  else if myEndsWith fname ".txt" && myStartsWith fname "sequencing_summary" then
    some .sequencing_summary
  else nanoLateChecks fname

/-! ## The classification registry (Main_Auto_Processor) -/

/-- Identifiers of the registered extractor modules. -/
inductive FormatId where
  | beadstudio | thermal_report | fm_generation | illumina_samplesheet
  | fm_autotilt | nanopore
  deriving DecidableEq, Repr

/-- The EXTRACTORS list: an ordered registry pairing each module with its
validation predicate (the nanopore tagged validator counts as a match
whenever it returns any label). -/
def EXTRACTORS : List (FormatId × (PyFile → Bool)) :=
  [(.beadstudio, is_beadstudio_file),
   (.thermal_report, is_thermal_report),
   (.fm_generation, is_fm_generation_report),
   (.illumina_samplesheet, is_illumina_samplesheet),
   (.fm_autotilt, is_fm_autotilt_report),
   (.nanopore, fun f => (is_nanopore_file f).isSome)]

/-- The loop body of detect_file_type over a registry tail. -/
def detectAux (f : PyFile) : List (FormatId × (PyFile → Bool)) → Option FormatId
  | [] => none
  | e :: rest => if e.2 f then some e.1 else detectAux f rest

/-- Main_Auto_Processor.detect_file_type: first registered validator that
accepts the file wins; none when every validator rejects it. -/
def detect_file_type (f : PyFile) : Option FormatId :=
  detectAux f EXTRACTORS

/-! ## Shared section location (get_csv_section) -/

/-- Offset of the first line starting with a bracket inside the part of
the file after the marker line; the Python loop leaves the end index at
the file length when no such line exists, so the offset is the suffix
length in that case. -/
def bracketEndOffset : List String → Nat
  | [] => 0
  | l :: ls => if myStartsWith l "[" then 0 else 1 + bracketEndOffset ls

/-- Index of the first line starting with the section marker (the
enumerate loop with break of get_csv_section). -/
def locateSectionStart (lines : List String) (name : String) : Option Nat :=
  match lines with
  | [] => none
  | l :: ls =>
    if myStartsWith l name then some 0
    else (locateSectionStart ls name).map (· + 1)

/-- The raw lines of a named section: from the line after the marker up to
(excluding) the next line starting with a bracket, or the end of file. -/
def sectionLines (lines : List String) (name : String) : Option (List String) :=
  match locateSectionStart lines name with
  | none => none
  | some i =>
    let rest := lines.drop (i + 1)
    some (rest.take (bracketEndOffset rest))

inductive CsvSectionError where
  | sectionNotFound | parseFailure
  deriving DecidableEq, Repr

/-- Extractor_BeadStudio.get_csv_section: raises ValueError when the
marker is absent; otherwise parses the section slice with pandas. -/
def get_csv_section (f : PyFile) (name : String) :
    Except CsvSectionError (List String × List (List String)) :=
  match sectionLines f.lines name with
  | none => .error .sectionNotFound
  | some content =>
    match pyReadCsv content with
    | none => .error .parseFailure
    | some t => .ok t

/-- The Illumina variant of the csv reader: python engine with
skipinitialspace and on_bad_lines=skip, so over-long rows are dropped
instead of failing the read. -/
def illuminaReadCsv (content : List String) :
    Option (List String × List (List String)) :=
  match content.filter (· ≠ "") with
  | [] => none
  | h :: t =>
    let header := (splitCommas h).map pyLStripSpaces
    let raw :=
      ((t.map (fun l => (splitCommas l).map pyLStripSpaces)).filter
        (fun r => r.length ≤ header.length))
    some (header, raw.map (padRow header.length))

/-- df.dropna(axis=1, how=all): keep only columns with a non-missing cell. -/
def dropAllNaColumns (t : List String × List (List String)) :
    List String × List (List String) :=
  let keep :=
    (List.range t.1.length).filter fun j => t.2.any fun r => r.getD j "" ≠ ""
  (keep.map (fun j => t.1.getD j ""), t.2.map fun r => keep.map (r.getD · ""))

/-- Extractor_IlluminaSampleSheet.get_csv_section: returns an empty
DataFrame (not an error) when the marker is absent. -/
def illumina_get_csv_section (f : PyFile) (name : String) :
    Except CsvSectionError (List String × List (List String)) :=
  match sectionLines f.lines name with
  | none => .ok ([], [])
  | some content =>
    match illuminaReadCsv content with
    | none => .error .parseFailure
    | some t => .ok (dropAllNaColumns t)

/-! ## The BeadStudio extractor -/

/-- Key normalisation for metadata: lowercase with spaces as underscores. -/
def normKey (s : String) : String := pyReplace (pyLower s) " " "_"

/-- Extractor_BeadStudio.extract_metadata: iterrows over the Header
section, keeping rows whose first two cells are both non-missing; any
exception (missing section, unparsable section, fewer than two columns)
degrades to the metadata collected so far. -/
def extract_metadata (f : PyFile) : List (String × String) :=
  match get_csv_section f "[Header]" with
  | .error _ => []
  | .ok (header, rows) =>
    if header.length < 2 then []
    else
      rows.foldl
        (fun m row =>
          let key := row.getD 0 ""
          let val := row.getD 1 ""
          if key ≠ "" ∧ val ≠ "" then assocSet m (normKey key) val else m)
        []

/-- Extractor_BeadStudio.extract_manifest_info. -/
def extract_manifest_info (f : PyFile) : String :=
  match locateSectionStart f.lines "[Manifests]" with
  | none => "N/A"
  | some i =>
    match f.lines[i + 1]? with
    | none => "N/A"
    | some l =>
      let ml := pyTrim l
      if ml = "" then "N/A"
      else
        let parts := splitCommas ml
        if parts.length ≥ 2 then pyTrim (parts.getD 1 "") else "N/A"

/-- Extractor_BeadStudio.count_samples. -/
def count_samples (f : PyFile) : Nat :=
  match get_csv_section f "[Data]" with
  | .error _ => 0
  | .ok (_, rows) => rows.length

/-- The per-file output of the BeadStudio extractor. -/
structure BeadStudioRecord where
  file_name : String
  metadata : List (String × String)
  manifest_id : String
  number_of_samples : Nat
  deriving DecidableEq, Repr

/-- Extractor_BeadStudio.one_single_file: re-validates with its own
predicate and raises ValueError before any extraction when it fails. -/
def beadstudio_one_single_file (f : PyFile) :
    Except String BeadStudioRecord :=
  if ¬ is_beadstudio_file f then
    .error ("Process aborted: " ++ f.name ++ " is not a valid BeadStudio file.")
  else
    .ok { file_name := f.name
          metadata := extract_metadata f
          manifest_id := extract_manifest_info f
          number_of_samples := count_samples f }

/-! ## The NanoDrop QC extractor -/

def nanodropRequired : List String :=
  ["Sample.ID", "ng.ul", "260.280", "260.230"]

/-- Extractor_NanoDrop_QC.is_nanodrop_export: extension check plus a
zero-row header read looking for the NanoDrop column signature. -/
def is_nanodrop_export (f : PyFile) : Bool :=
  if ¬ myEndsWith (pyLower f.name) ".csv" then false
  else
    match (f.lines.filter (· ≠ "")).head? with
    | none => false
    | some h => nanodropRequired.all ((splitCommas h).contains ·)

def nanodropRenamed : List String :=
  ["Sample_ID", "concentration_ng_ul", "ratio_260_280", "ratio_260_230"]

/-- The per-file output of the NanoDrop extractor (the fixed descriptive
fields are omitted; only the data-dependent fields are modelled). -/
structure NanoDropRecord where
  file_name : String
  total_samples : Nat
  samples : List (List (String × String))
  deriving DecidableEq, Repr

/-- Extractor_NanoDrop_QC.one_single_file: loads the CSV and selects and
renames the four QC columns.  There is no call to the validation
predicate anywhere on this path; a missing column raises a KeyError
(a generic failure, not an invalid-format rejection). -/
def nanodrop_one_single_file (f : PyFile) : Except String NanoDropRecord :=
  match pyReadCsv f.lines with
  | none => .error "read_csv failed"
  | some (header, rows) =>
    if nanodropRequired.all (header.contains ·) then
      .ok { file_name := f.name
            total_samples := rows.length
            samples := rows.map fun r =>
              nanodropRequired.zip nanodropRenamed |>.map fun p =>
                (p.2, r.getD (header.findIdx (· = p.1)) "") }
    else .error "KeyError: missing QC columns"

/-! ## The focus-model section decoder (FMGeneration and FMAutoTilt) -/

/-- The decoded shape of one bracket section, or of the top metadata. -/
inductive SectionVal where
  | pairs (l : List (String × String))
  | table (rows : List (List (String × String)))
  | metaMap (d : List (String × String))
  deriving DecidableEq, Repr

/-- Successive bracket-marked sections: each marker line together with the
lines strictly between it and the next marker (or the end of file). -/
def splitSectionsAux : Nat → List String → List (String × List String)
  | 0, _ => []
  | fuel + 1, lines =>
    match lines.dropWhile (fun l => ¬ myStartsWith l "[") with
    | [] => []
    | marker :: rest =>
      (marker, rest.takeWhile (fun l => ¬ myStartsWith l "[")) ::
        splitSectionsAux fuel (rest.dropWhile (fun l => ¬ myStartsWith l "["))

def splitSections (lines : List String) : List (String × List String) :=
  splitSectionsAux lines.length lines

/-- The shared body of the section loop in both extract_all_sections
implementations: a 2-column no-header read becomes an ordered list of
singleton pairs; any other width is re-read with the first row as header
and becomes row records; a failed or empty read yields nothing. -/
def decodeSectionBody (body : List String) : Option SectionVal :=
  match pyReadCsvNoHeader body with
  | none => none
  | some rows =>
    if rows.isEmpty then none
    else if (rows.headD []).length = 2 then
      some (.pairs (rows.map fun r => (pyTrim (r.getD 0 ""), r.getD 1 "")))
    else
      match pyReadCsv body with
      | none => none
      | some (header, dataRows) =>
        some (.table (dataRows.map (header.zip ·)))

/-- FMGeneration key cleaning: strip, strip brackets, lowercase, spaces
to underscores. -/
def cleanKeyFMGen (hdr : String) : String :=
  pyReplace (pyLower (pyStripChars ['[', ']'] (pyTrim hdr))) " " "_"

/-- FMAutoTilt key cleaning: additionally drops equals signs and commas. -/
def cleanKeyFMAutoTilt (hdr : String) : String :=
  pyReplace (pyReplace (pyReplace (pyLower (pyStripChars ['[', ']']
    (pyTrim hdr))) " " "_") "=" "") "," ""

/-- The section loop shared by the two decoders: sections whose decode
fails are skipped and the scan continues with the rest. -/
def decodeSectionsWith (clean : String → String)
    (init : List (String × SectionVal)) (lines : List String) :
    List (String × SectionVal) :=
  (splitSections lines).foldl
    (fun acc pr =>
      match decodeSectionBody pr.2 with
      | none => acc
      | some v => assocSet acc (clean pr.1) v)
    init

/-- The top metadata of an FMGeneration report: the non-blank lines before
the first bracket, read as Key,Value pairs. -/
def fmGenTopMetadata (lines : List String) : List (String × SectionVal) :=
  let headerLines :=
    (lines.takeWhile (fun l => ¬ myStartsWith l "[")).filter (pyTrim · ≠ "")
  if headerLines.isEmpty then []
  else
    [("metadata",
      .metaMap (headerLines.foldl
        (fun m l =>
          let parts := splitCommas l
          assocSet m (normKey (parts.getD 0 "")) (parts.getD 1 ""))
        []))]

/-- Extractor_FMGeneration.extract_all_sections. -/
def extract_all_sections_fmgen (f : PyFile) : List (String × SectionVal) :=
  decodeSectionsWith cleanKeyFMGen (fmGenTopMetadata f.lines) f.lines

/-- Extractor_FMAutoTilt.extract_all_sections. -/
def extract_all_sections_fmautotilt (f : PyFile) : List (String × SectionVal) :=
  decodeSectionsWith cleanKeyFMAutoTilt [] f.lines

/-! ## The nanopore extractor -/

/-- Extractor_Nanopore.extract_metadata_from_txt: key=value lines of a
final summary, split on the first equals sign, keys lowercased. -/
def extract_metadata_from_txt (lines : List String) : List (String × String) :=
  lines.foldl
    (fun m line =>
      if strContainsSub line "=" then
        assocSet m (pyLower (pyTrim (strBeforeFirst line "=")))
          (pyTrim ((strAfterFirst line "=").getD ""))
      else m)
    []

/-- One row of csv.DictReader: fieldnames zipped with the row, later
duplicates overwriting earlier ones, and fieldnames beyond the row length
bound to the missing value (Python None). -/
def dictReaderRow (fieldnames row : List String) :
    List (String × Option String) :=
  let base :=
    (fieldnames.zip row).foldl (fun m kv => assocSet m kv.1 (some kv.2)) []
  (fieldnames.drop row.length).foldl (fun m k => assocSet m k none) base

/-- Accumulator of the single pass over a sequencing summary. -/
structure SeqState where
  total : Nat
  passed : Nat
  qsum : ℚ
  samples : List String
  experiments : List String
  runids : List String
  pores : List String
  deriving Repr

/-- The value of row.get with the empty-string default that the upper
call is applied to; none is the Python None on which .upper() raises. -/
def seqFlagVal (fieldnames row : List String) : Option String :=
  match assocLookup (dictReaderRow fieldnames row) "passes_filtering" with
  | some v => v
  | none => some ""

/-- The set-growing test and value of one row: a key that is present with
a truthy (non-empty, non-None) value contributes that value. -/
def seqCollect (fieldnames row : List String) (key : String) : Option String :=
  match assocLookup (dictReaderRow fieldnames row) key with
  | some (some v) => if v ≠ "" then some v else none
  | _ => none

/-- The growth of one deduplicating collection by one row. -/
def seqAddIf (fieldnames row : List String) (key : String)
    (l : List String) : List String :=
  match assocLookup (dictReaderRow fieldnames row) key with
  | some (some v) => if v ≠ "" then l ++ [v] else l
  | _ => l

/-- The quality-score contribution of one row: missing keys, missing
values and unparsable numbers contribute zero (the float call raising is
caught by the inner except). -/
def seqQContrib (fieldnames row : List String) : ℚ :=
  match assocLookup (dictReaderRow fieldnames row) "mean_qscore_template" with
  | some (some v) => (parseFloatQ v).getD 0
  | _ => 0

/-- The loop body for one data row.  A row in which the
passes_filtering column exists but has no value produces Python None,
on which .upper() raises (none aborts the whole extraction, as the
enclosing try/except returns an empty result). -/
def seqStep (fieldnames : List String) (st : SeqState) (row : List String) :
    Option SeqState :=
  match seqFlagVal fieldnames row with
  | none => none
  | some pfs =>
    some { total := st.total + 1
           passed := st.passed + (if pyUpper pfs = "TRUE" then 1 else 0)
           qsum := st.qsum + seqQContrib fieldnames row
           samples := seqAddIf fieldnames row "sample_id" st.samples
           experiments := seqAddIf fieldnames row "experiment_id" st.experiments
           runids := seqAddIf fieldnames row "run_id" st.runids
           pores := seqAddIf fieldnames row "pore_type" st.pores }

def seqFold (fieldnames : List String) :
    List (List String) → SeqState → Option SeqState
  | [], st => some st
  | r :: rs, st =>
    match seqStep fieldnames st r with
    | none => none
    | some st2 => seqFold fieldnames rs st2

/-- The aggregate produced from one sequencing summary. -/
structure SeqMeta where
  file_name : String
  total_reads : Nat
  passed_filtering_count : Nat
  unique_samples : List String
  unique_experiments : List String
  unique_run_ids : List String
  mean_qscore : ℚ
  pore_types : List String
  deriving DecidableEq, Repr

/-- The DictReader fieldnames: the first line split on tabs. -/
def seqFieldnames (f : PyFile) : List String :=
  match f.lines.head? with
  | some h => splitTabs h
  | none => []

/-- The data rows: the remaining non-blank lines split on tabs (the csv
reader yields nothing for blank lines and DictReader skips them). -/
def seqDataRows (f : PyFile) : List (List String) :=
  ((f.lines.drop 1).filter (· ≠ "")).map splitTabs

/-- Extractor_Nanopore.extract_metadata_from_Sequencing_txt: one streaming
pass over the tab-separated reads table; none models the exception path
on which the Python function returns an empty record. -/
def extract_metadata_from_Sequencing_txt (f : PyFile) : Option SeqMeta :=
  match seqFold (seqFieldnames f) (seqDataRows f) ⟨0, 0, 0, [], [], [], []⟩ with
  | none => none
  | some st =>
    some { file_name := f.name
           total_reads := st.total
           passed_filtering_count := st.passed
           unique_samples := sortedUnique st.samples
           unique_experiments := sortedUnique st.experiments
           unique_run_ids := sortedUnique st.runids
           mean_qscore := if st.total > 0 then pyRound2 (st.qsum / st.total) else 0
           pore_types := sortedUnique st.pores }

/-- Extractor_Nanopore.extract_pore_scan_stats: counts of single_pore and
saturated assessments plus the well total; none models the empty result
of the guard and except branches. -/
def extract_pore_scan_stats (f : PyFile) : Option (Nat × Nat × Nat) :=
  match pyReadCsv f.lines with
  | none => none
  | some (header, rows) =>
    if rows.isEmpty ∨ ¬ header.contains "mux_scan_assessment" then none
    else
      let j := header.findIdx (· = "mux_scan_assessment")
      some (rows.countP (fun r => r.getD j "" = "single_pore"),
            rows.countP (fun r => r.getD j "" = "saturated"),
            rows.length)

/-- Extractor_Nanopore.extract_metadata_from_md: the slice between the
first opening and first closing brace is parsed as JSON when the content
mentions a Tracking ID header; the outer none models the exception that
escapes the call (the except branch returns an unbound name), some none
the explicit None result when the header is missing. -/
def extract_metadata_from_md (f : PyFile) : Option (Option PyVal) :=
  let content := f.content
  if strContainsSub content "Tracking ID" then
    match findSubIdx ['{'] content.toList, findSubIdx ['}'] content.toList with
    | some s, some e =>
      if s ≤ e then
        match pyJsonLoads (String.mk ((content.toList.drop s).take (e + 1 - s))) with
        | some v => some (some v)
        | none => none
      else none
    | _, _ => none
  else some none

/-- The first data row of a sample sheet as a dict (df.iloc[0].to_dict()). -/
def firstRowDict (header row : List String) : List (String × String) :=
  (header.zip row).foldl (fun m kv => assocSet m kv.1 kv.2) []

/-- The consolidated nanopore run record. -/
structure GeneralRecord where
  run_id : PyVal
  metrics : List (String × PyVal)
  files_processed : List String

/-- The freshly initialised master record. -/
def initialGeneralRecord : GeneralRecord :=
  { run_id := .vstr "unknown", metrics := [], files_processed := [] }

/-- The Python comparison run_id == "unknown". -/
def isUnknownRunId (v : PyVal) : Bool :=
  match v with
  | .vstr s => s = "unknown"
  | _ => false

/-- Python x or y over optional strings: empty strings are falsy. -/
def pyOrStr (x y : Option String) : Option String :=
  match x with
  | some s => if s ≠ "" then some s else y
  | none => y

/-- The sample-sheet branch: an unconditional run-identifier overwrite
from the first row, defaulting to unknown, plus the payload fragment;
an empty or unreadable sheet changes nothing. -/
def sampleSheetStep (rid : PyVal) (f : PyFile) :
    PyVal × List (String × PyVal) :=
  match pyReadCsv f.lines with
  | some (header, r0 :: _) =>
    let d := firstRowDict header r0
    (PyVal.vstr ((assocLookup d "protocol_run_id").getD "unknown"),
     [("metadata_Sample_Sheet", PyVal.vobj (d.map fun p => (p.1, PyVal.vstr p.2)))])
  | _ => (rid, [])

/-- The final-summary branch: the run identifier is filled from the
summary only while it is still unknown (a falsy lookup result can leave
the Python None behind). -/
def finalSummaryStep (rid : PyVal) (f : PyFile) :
    PyVal × List (String × PyVal) :=
  let meta := extract_metadata_from_txt f.lines
  let newRid :=
    if isUnknownRunId rid then
      match pyOrStr (assocLookup meta "protocol_run_id")
          (assocLookup meta "run_id") with
      | some s => PyVal.vstr s
      | none => PyVal.vnull
    else rid
  (newRid,
   [("metadata_Final_Summary", PyVal.vobj (meta.map fun p => (p.1, PyVal.vstr p.2)))])

def seqMetaToPyVal (m : SeqMeta) : PyVal :=
  .vobj [("file_name", .vstr m.file_name),
         ("total_reads", .vnum m.total_reads),
         ("passed_filtering_count", .vnum m.passed_filtering_count),
         ("unique_samples", .varr (m.unique_samples.map .vstr)),
         ("unique_experiments", .varr (m.unique_experiments.map .vstr)),
         ("unique_run_ids", .varr (m.unique_run_ids.map .vstr)),
         ("mean_qscore", .vnum m.mean_qscore),
         ("pore_types", .varr (m.pore_types.map .vstr))]

def seqSummaryPayload (f : PyFile) : List (String × PyVal) :=
  [("metadata_Sequencing_Summary",
    match extract_metadata_from_Sequencing_txt f with
    | some m => seqMetaToPyVal m
    | none => PyVal.vobj [])]

def poreActivityPayload (f : PyFile) : List (String × PyVal) :=
  match pyReadCsv f.lines with
  | none => []
  | some (header, rows) =>
    if rows.isEmpty then []
    else if ¬ (header.contains "Channel State" &&
        header.contains "State Time (samples)" &&
        header.contains "Experiment Time (minutes)") then []
    else
      let cs := header.findIdx (· = "Channel State")
      let stc := header.findIdx (· = "State Time (samples)")
      let et := header.findIdx (· = "Experiment Time (minutes)")
      let keys := sortedUnique (rows.map (fun r => r.getD cs ""))
      let summary := keys.map fun k =>
        (k, PyVal.vnum (((rows.filter (fun r => r.getD cs "" = k)).map
          (fun r => (parseFloatQ (r.getD stc "")).getD 0)).sum))
      let totalMinutes :=
        ((rows.map (fun r => (parseFloatQ (r.getD et "")).getD 0)).foldl max 0)
      [("pore_activity_summary",
        PyVal.vobj [("states_total_samples", PyVal.vobj summary),
                    ("total_logged_minutes", PyVal.vnum (pyInt totalMinutes))])]

def throughputPayload (f : PyFile) : List (String × PyVal) :=
  match pyReadCsv f.lines with
  | none => []
  | some (header, rows) =>
    if rows.isEmpty then []
    else
      let lastRow := rows.getLastD []
      let valInt (key : String) : Option ℤ :=
        match header.findIdx? (· = key) with
        | none => some 0
        | some j => (parseFloatQ (lastRow.getD j "")).map pyInt
      match valInt "Reads", valInt "Basecalled Reads Passed",
          valInt "Basecalled Bases", valInt "Experiment Time (minutes)" with
      | some a, some b, some c, some d =>
        [("throughput",
          PyVal.vobj [("total_reads", .vnum a), ("passed_reads", .vnum b),
                      ("bases", .vnum c), ("run_time_minutes", .vnum d)])]
      | _, _, _, _ => []

def temperaturePayload (f : PyFile) : List (String × PyVal) :=
  match pyReadCsv f.lines with
  | none => []
  | some (header, rows) =>
    if rows.isEmpty then []
    else
      let lastRow := rows.getLastD []
      let valQ (key : String) : Option ℚ :=
        match header.findIdx? (· = key) with
        | none => some 0
        | some j => parseFloatQ (lastRow.getD j "")
      match valQ "current_target_temperature", valQ "current_speed",
          valQ "num_reads", valQ "acquisition_duration" with
      | some a, some b, some c, some d =>
        [("thermal_control",
          PyVal.vobj [("last_target_temp", .vnum a),
                      ("last_sequencing_speed", .vnum b),
                      ("total_recorded_reads", .vnum (pyInt c)),
                      ("run_duration_at_log", .vnum (pyInt d))])]
      | _, _, _, _ => []

def poreScanPayload (f : PyFile) : List (String × PyVal) :=
  [("pore_scan_diagnostics",
    match extract_pore_scan_stats f with
    | some (a, s, t) =>
      PyVal.vobj [("available_pores", .vnum a), ("saturated_wells", .vnum s),
                  ("total_wells", .vnum t)]
    | none => PyVal.vobj [])]

def mdPayload (f : PyFile) : List (String × PyVal) :=
  match extract_metadata_from_md f with
  | none => []
  | some v => [("Tracking ID", v.getD PyVal.vnull)]

def jsonReportPayload (f : PyFile) : List (String × PyVal) :=
  match pyJsonLoads f.content with
  | some (PyVal.vobj fields) =>
    [("instrument_info", (assocLookup fields "host").getD (PyVal.vobj []))]
  | _ => []

/-- The dispatch of one processing call: the new run identifier together
with the data payload for the classified subtype (an empty payload means
nothing is merged). -/
def nanoporeStep (rid : PyVal) (f : PyFile) : PyVal × List (String × PyVal) :=
  match is_nanopore_file f with
  | some .sample_sheet => sampleSheetStep rid f
  | some .final_summary => finalSummaryStep rid f
  | some .sequencing_summary => (rid, seqSummaryPayload f)
  | some .pore_activity => (rid, poreActivityPayload f)
  | some .throughput => (rid, throughputPayload f)
  | some .temperature => (rid, temperaturePayload f)
  | some .pore_scan => (rid, poreScanPayload f)
  | some .report_in_markdown => (rid, mdPayload f)
  | some .json_report => (rid, jsonReportPayload f)
  | _ => (rid, [])

/-- The in-memory merge of Extractor_Nanopore.one_single_file: when the
payload is truthy, each subtype key is overwritten with the fresh
fragment and the filename is appended only if not already present. -/
def one_single_file_merge (rec : GeneralRecord) (f : PyFile) : GeneralRecord :=
  let rp := nanoporeStep rec.run_id f
  if rp.2.isEmpty then { rec with run_id := rp.1 }
  else
    { run_id := rp.1
      metrics := dictUpdate rec.metrics rp.2
      files_processed :=
        if rec.files_processed.contains f.name then rec.files_processed
        else rec.files_processed ++ [f.name] }

/-! ## Lenient date parsing (Sample_History_Extractor) -/

/-- A calendar date encoded so that the numeric order is the
year-month-day lexicographic order. -/
def encodeDate (y m d : Nat) : Nat := (y * 100 + m) * 100 + d

/-- datetime.min is the first of January of year 1. -/
def datetimeMin : Nat := encodeDate 1 1 1

def isLeapYear (y : Nat) : Bool :=
  y % 4 = 0 && (y % 100 ≠ 0 || y % 400 = 0)

def daysInMonth (y m : Nat) : Nat :=
  if m = 1 ∨ m = 3 ∨ m = 5 ∨ m = 7 ∨ m = 8 ∨ m = 10 ∨ m = 12 then 31
  else if m = 4 ∨ m = 6 ∨ m = 9 ∨ m = 11 then 30
  else if isLeapYear y then 29 else 28

/-- The strptime %Y directive: exactly four digits, and the datetime
constructor then requires a year of at least 1. -/
def yearField (s : String) : Option Nat :=
  if allDigits s ∧ s.length = 4 ∧ 1 ≤ digitsToNat s then some (digitsToNat s)
  else none

/-- The strptime %m directive: one or two digits naming a month. -/
def monthField (s : String) : Option Nat :=
  if allDigits s ∧ s.length ≤ 2 ∧ 1 ≤ digitsToNat s ∧ digitsToNat s ≤ 12 then
    some (digitsToNat s)
  else none

/-- The strptime %d directive: one or two digits in 1..31; calendar
validity against the month is checked by the datetime constructor. -/
def dayField (s : String) : Option Nat :=
  if allDigits s ∧ s.length ≤ 2 ∧ 1 ≤ digitsToNat s ∧ digitsToNat s ≤ 31 then
    some (digitsToNat s)
  else none

def mkValidDate (y m d : Nat) : Option Nat :=
  if d ≤ daysInMonth y m then some (encodeDate y m d) else none

/-- strptime with a three-part separated pattern, given the separator and
the positions of year, month and day among the three parts. -/
def strptimeSep (sep : String) (yi mi di : Nat) (s : String) : Option Nat :=
  match pySplit s sep with
  | [a, b, c] =>
    let parts := [a, b, c]
    match yearField (parts.getD yi ""), monthField (parts.getD mi ""),
        dayField (parts.getD di "") with
    | some y, some m, some d => mkValidDate y m d
    | _, _, _ => none
  | _ => none

/-- The regex alternation for %m inside a compact pattern, in alternation
order (10-12, then 01-09, then a bare 1-9), with the rest of the input. -/
def monthAlts (rest : List Char) : List (Nat × List Char) :=
  (match rest with
   | '1' :: c :: r =>
     if '0' ≤ c ∧ c ≤ '2' then [(10 + (c.toNat - 48), r)] else []
   | _ => []) ++
  (match rest with
   | '0' :: c :: r =>
     if '1' ≤ c ∧ c ≤ '9' then [(c.toNat - 48, r)] else []
   | _ => []) ++
  (match rest with
   | c :: r => if '1' ≤ c ∧ c ≤ '9' then [(c.toNat - 48, r)] else []
   | _ => [])

/-- The regex alternation for %d (30-31, 10-29, 01-09, bare 1-9). -/
def dayAlts (rest : List Char) : List (Nat × List Char) :=
  (match rest with
   | '3' :: c :: r =>
     if '0' ≤ c ∧ c ≤ '1' then [(30 + (c.toNat - 48), r)] else []
   | _ => []) ++
  (match rest with
   | c :: c2 :: r =>
     if ('1' ≤ c ∧ c ≤ '2') ∧ c2.isDigit then
       [(10 * (c.toNat - 48) + (c2.toNat - 48), r)]
     else []
   | _ => []) ++
  (match rest with
   | '0' :: c :: r =>
     if '1' ≤ c ∧ c ≤ '9' then [(c.toNat - 48, r)] else []
   | _ => []) ++
  (match rest with
   | c :: r => if '1' ≤ c ∧ c ≤ '9' then [(c.toNat - 48, r)] else []
   | _ => [])

/-- strptime %Y%m%d: four digits of year, then the month and day
alternations with regex backtracking (first month alternative whose
remainder lets the day consume the whole input). -/
def strptimeCompact (s : String) : Option Nat :=
  let cs := s.toList
  let ys := String.mk (cs.take 4)
  match yearField ys with
  | none => none
  | some y =>
    let rest := cs.drop 4
    match ((monthAlts rest).filterMap fun p =>
        (((dayAlts p.2).find? fun q => q.2.isEmpty).map fun q =>
          (p.1, q.1))).head? with
    | some (m, d) => mkValidDate y m d
    | none => none

/-- Sample_History_Extractor.parse_flexible_date: a falsy or N/A string is
datetime.min at once; otherwise the four patterns are attempted in fixed
order (ISO dashes, compact digits, US slashes, EU slashes) and every
failure falls through to datetime.min. -/
def parse_flexible_date (s : String) : Nat :=
  if s = "" ∨ s = "N/A" then datetimeMin
  else
    match strptimeSep "-" 0 1 2 s with
    | some v => v
    | none =>
      match strptimeCompact s with
      | some v => v
      | none =>
        match strptimeSep "/" 2 0 1 s with
        | some v => v
        | none =>
          match strptimeSep "/" 2 1 0 s with
          | some v => v
          | none => datetimeMin

/-! ## The sample-history reconciler -/

/-- A previously persisted normalised record, as read back from JSON: each
top-level field is fetched with .get and so is absent (Python None) when the
record lacks the key; in particular the metadata mapping is none for records
persisted without a metadata key, such as every NanoDrop QC output. The
samples field is fetched with a [] default and is therefore total. -/
structure NormalizedRecord where
  file_name : Option String
  file_type : Option String
  metadata : Option (List (String × String))
  manifest_id : Option String
  samples : List (List (String × Option String))
  deriving DecidableEq, Repr

/-- The record dict built for each matching row (Sample_History_Extractor
lines 57 to 63): extraction_metadata is data.get(metadata) with no default,
hence Python None when the source JSON has no metadata key. -/
structure RawHistoryEntry where
  source_file : Option String
  file_type : Option String
  extraction_metadata : Option (List (String × String))
  manifest_id : Option String
  sample_details : List (String × Option String)
  deriving DecidableEq, Repr

/-- One entry of a sample history whose sort key was computed successfully:
by then the extraction_metadata of the entry is an established mapping. -/
structure HistoryEntry where
  source_file : Option String
  file_type : Option String
  extraction_metadata : List (String × String)
  manifest_id : Option String
  sample_details : List (String × Option String)
  deriving DecidableEq, Repr

/-- The row match of get_sample_history: the stringified Sample_ID or
Sample_Name field equals the target, case-insensitively (a missing field
stringifies to the text None). -/
def sampleMatches (target : String) (row : List (String × Option String)) :
    Bool :=
  let t := pyLower target
  pyLower (pyStr ((assocLookup row "Sample_ID").getD none)) = t ||
    pyLower (pyStr ((assocLookup row "Sample_Name").getD none)) = t

def mkHistoryEntry (r : NormalizedRecord) (row : List (String × Option String)) :
    RawHistoryEntry :=
  { source_file := r.file_name
    file_type := r.file_type
    extraction_metadata := r.metadata
    manifest_id := r.manifest_id
    sample_details := row }

/-- The sort key: the lenient parse of the date field of the metadata
snapshot, with N/A standing in for a missing field. -/
def entryDateKey (e : HistoryEntry) : Nat :=
  parse_flexible_date ((assocLookup e.extraction_metadata "date").getD "N/A")

def historyLe (a b : HistoryEntry) : Prop := entryDateKey a ≤ entryDateKey b

instance : DecidableRel historyLe := fun a b =>
  inferInstanceAs (Decidable (entryDateKey a ≤ entryDateKey b))

instance : IsTotal HistoryEntry historyLe :=
  ⟨fun a b => Nat.le_total (entryDateKey a) (entryDateKey b)⟩

instance : IsTrans HistoryEntry historyLe :=
  ⟨fun _ _ _ hab hbc => Nat.le_trans hab hbc⟩

/-- The ascending sort of the collected history. -/
def sortHistory (l : List HistoryEntry) : List HistoryEntry :=
  List.insertionSort historyLe l

/-- All matching entries, in record order then row order. -/
def allHistoryMatches (records : List NormalizedRecord) (target : String) :
    List RawHistoryEntry :=
  (records.map fun r =>
    (r.samples.filter (sampleMatches target)).map (mkHistoryEntry r)).flatten

/-- The sort-key access of line 68 on one collected entry: reading the date
out of x.extraction_metadata raises AttributeError when extraction_metadata
is Python None, so the result is none exactly then; otherwise the entry with
its established metadata mapping. -/
def sealHistoryEntry (e : RawHistoryEntry) : Option HistoryEntry :=
  match e.extraction_metadata with
  | none => none
  | some m =>
    some { source_file := e.source_file
           file_type := e.file_type
           extraction_metadata := m
           manifest_id := e.manifest_id
           sample_details := e.sample_details }

/-- The key pass of list.sort over the whole collected history, performed
before any comparison: it fails as soon as any collected entry lacks a
metadata mapping, and on the empty history no key is ever computed. -/
def sealHistory : List RawHistoryEntry → Option (List HistoryEntry)
  | [] => some []
  | e :: es =>
    match sealHistoryEntry e, sealHistory es with
    | some h, some hs => some (h :: hs)
    | _, _ => none

/-- Sample_History_Extractor.get_sample_history: every matching row is
collected; the sort-key pass raises AttributeError when any collected entry
lacks a metadata mapping (nothing is written and the call does not return
normally); otherwise the sorted history is persisted under a file named
after the target only when at least one row matched, and with no match
nothing is written and the call returns normally. -/
def get_sample_history (records : List NormalizedRecord) (target : String) :
    Except Unit (Option (String × List HistoryEntry)) :=
  match sealHistory (allHistoryMatches records target) with
  | none => Except.error ()
  | some entries =>
    let sorted := sortHistory entries
    if sorted.isEmpty then Except.ok none
    else Except.ok (some ("History_" ++ target ++ ".json", sorted))

/-! # Helper lemmas -/

theorem readExactLines_none_of_short (n : Nat) (lines : List String)
    (h : lines.length < n) : readExactLines n lines = none := by
  induction n generalizing lines with
  | zero => omega
  | succ n ih =>
    cases lines with
    | nil => rfl
    | cons l ls =>
      simp only [readExactLines, ih ls (by simpa using h), Option.map_none']

theorem assocSet_assocSet (m : List (String × α)) (k : String) (v : α) :
    assocSet (assocSet m k v) k v = assocSet m k v := by
  induction m with
  | nil => simp [assocSet]
  | cons kv rest ih =>
    by_cases h : kv.1 = k
    · simp [assocSet, h]
    · simp [assocSet, h, ih]

theorem nanoporeStep_payload_const (r r2 : PyVal) (f : PyFile) :
    (nanoporeStep r f).2 = (nanoporeStep r2 f).2 := by
  cases h : is_nanopore_file f with
  | none => simp [nanoporeStep, h]
  | some t =>
    cases t with
    | sample_sheet =>
      rcases hc : pyReadCsv f.lines with _ | ⟨hdr, _ | ⟨r0, rest⟩⟩ <;>
        simp [nanoporeStep, sampleSheetStep, h, hc]
    | final_summary => simp [nanoporeStep, finalSummaryStep, h]
    | _ => simp [nanoporeStep, h]

theorem nanoporeStep_payload_shape (r : PyVal) (f : PyFile) :
    (nanoporeStep r f).2 = [] ∨ ∃ k v, (nanoporeStep r f).2 = [(k, v)] := by
  cases h : is_nanopore_file f with
  | none => exact Or.inl (by simp [nanoporeStep, h])
  | some t =>
    cases t
    case sample_sheet =>
      have hx : (nanoporeStep r f).2 = (sampleSheetStep r f).2 := by
        simp [nanoporeStep, h]
      rw [hx]
      unfold sampleSheetStep
      repeat' split
      all_goals first | exact Or.inl rfl | exact Or.inr ⟨_, _, rfl⟩
    case final_summary =>
      have hx : (nanoporeStep r f).2 = (finalSummaryStep r f).2 := by
        simp [nanoporeStep, h]
      rw [hx]
      exact Or.inr ⟨_, _, rfl⟩
    case sequencing_summary =>
      have hx : (nanoporeStep r f).2 = seqSummaryPayload f := by
        simp [nanoporeStep, h]
      rw [hx]
      exact Or.inr ⟨_, _, rfl⟩
    case pore_activity =>
      have hx : (nanoporeStep r f).2 = poreActivityPayload f := by
        simp [nanoporeStep, h]
      rw [hx]
      unfold poreActivityPayload
      dsimp only
      repeat' split
      all_goals first | exact Or.inl rfl | exact Or.inr ⟨_, _, rfl⟩
    case throughput =>
      have hx : (nanoporeStep r f).2 = throughputPayload f := by
        simp [nanoporeStep, h]
      rw [hx]
      unfold throughputPayload
      dsimp only
      repeat' split
      all_goals first | exact Or.inl rfl | exact Or.inr ⟨_, _, rfl⟩
    case temperature =>
      have hx : (nanoporeStep r f).2 = temperaturePayload f := by
        simp [nanoporeStep, h]
      rw [hx]
      unfold temperaturePayload
      dsimp only
      repeat' split
      all_goals first | exact Or.inl rfl | exact Or.inr ⟨_, _, rfl⟩
    case pore_scan =>
      have hx : (nanoporeStep r f).2 = poreScanPayload f := by
        simp [nanoporeStep, h]
      rw [hx]
      exact Or.inr ⟨_, _, rfl⟩
    case report_in_markdown =>
      have hx : (nanoporeStep r f).2 = mdPayload f := by
        simp [nanoporeStep, h]
      rw [hx]
      unfold mdPayload
      repeat' split
      all_goals first | exact Or.inl rfl | exact Or.inr ⟨_, _, rfl⟩
    case json_report =>
      have hx : (nanoporeStep r f).2 = jsonReportPayload f := by
        simp [nanoporeStep, h]
      rw [hx]
      unfold jsonReportPayload
      repeat' split
      all_goals first | exact Or.inl rfl | exact Or.inr ⟨_, _, rfl⟩
    case pod5_file => exact Or.inl (by simp [nanoporeStep, h])
    case fastq_file => exact Or.inl (by simp [nanoporeStep, h])
    case bam_file => exact Or.inl (by simp [nanoporeStep, h])
    case bam_index_file => exact Or.inl (by simp [nanoporeStep, h])

theorem merge_run_id_eq (rec : GeneralRecord) (f : PyFile) :
    (one_single_file_merge rec f).run_id = (nanoporeStep rec.run_id f).1 := by
  unfold one_single_file_merge
  dsimp only
  split <;> rfl

theorem contains_merge_name (l : List String) (a : String) :
    (if l.contains a then l else l ++ [a]).contains a = true := by
  cases h : l.contains a with
  | true => simpa [h] using (by simpa using h : a ∈ l)
  | false => simp [h]

theorem merge_unfold (rec : GeneralRecord) (f : PyFile) :
    one_single_file_merge rec f =
      if (nanoporeStep rec.run_id f).2.isEmpty then
        { rec with run_id := (nanoporeStep rec.run_id f).1 }
      else
        { run_id := (nanoporeStep rec.run_id f).1
          metrics := dictUpdate rec.metrics (nanoporeStep rec.run_id f).2
          files_processed :=
            if rec.files_processed.contains f.name then rec.files_processed
            else rec.files_processed ++ [f.name] } := rfl

/-! # Claim theorems -/

/-- Claim C10: an input file with fewer than 20 lines is never classified
as a BeadStudio file, regardless of content, because the fixed 20-line
prefix read raises an exception that is swallowed as a non-match. -/
theorem c10_short_file_never_beadstudio (f : PyFile)
    (h : f.lines.length < 20) : is_beadstudio_file f = false := by
  unfold is_beadstudio_file
  rw [readExactLines_none_of_short 20 f.lines h]

theorem c10_short_file_never_beadstudio_witness :
    is_beadstudio_file ⟨"BeadStudio_export.csv", ["BeadStudio,Header,Data"]⟩ = false :=
  c10_short_file_never_beadstudio ⟨"BeadStudio_export.csv", ["BeadStudio,Header,Data"]⟩ (by decide)

/-- Claim C2: merging the same nanopore file twice is idempotent: the
second merge leaves the metrics mapping and the processed-file list
exactly as after the first merge, and a merge never pushes the number of
occurrences of a filename beyond one (no duplicate entries). -/
theorem c2_merge_idempotent (rec : GeneralRecord) (f : PyFile) :
    (one_single_file_merge (one_single_file_merge rec f) f).metrics =
      (one_single_file_merge rec f).metrics ∧
    (one_single_file_merge (one_single_file_merge rec f) f).files_processed =
      (one_single_file_merge rec f).files_processed ∧
    ∀ n, ((one_single_file_merge rec f).files_processed.count n) ≤
      max (rec.files_processed.count n) 1 := by
  have hconst := fun r r2 => nanoporeStep_payload_const r r2 f
  rcases nanoporeStep_payload_shape rec.run_id f with hp | ⟨k, v, hp⟩
  · -- empty payload: both merges only touch the run identifier
    have h1 : one_single_file_merge rec f =
        { rec with run_id := (nanoporeStep rec.run_id f).1 } := by
      rw [merge_unfold, hp]
      simp
    have hp2 : (nanoporeStep (one_single_file_merge rec f).run_id f).2 = [] :=
      (hconst _ _).trans hp
    have h2 : one_single_file_merge (one_single_file_merge rec f) f =
        { one_single_file_merge rec f with
          run_id := (nanoporeStep (one_single_file_merge rec f).run_id f).1 } := by
      rw [merge_unfold _ f, hp2]
      simp
    refine ⟨by rw [h2], by rw [h2], fun n => ?_⟩
    rw [h1]
    exact le_max_left _ _
  · -- singleton payload
    have h1 : one_single_file_merge rec f =
        { run_id := (nanoporeStep rec.run_id f).1
          metrics := assocSet rec.metrics k v
          files_processed :=
            if rec.files_processed.contains f.name then rec.files_processed
            else rec.files_processed ++ [f.name] } := by
      rw [merge_unfold, hp]
      simp [dictUpdate]
    have hp2 : (nanoporeStep (one_single_file_merge rec f).run_id f).2 = [(k, v)] :=
      (hconst _ _).trans hp
    have hmem : f.name ∈ (one_single_file_merge rec f).files_processed := by
      rw [h1]
      simpa using contains_merge_name rec.files_processed f.name
    have h2 : one_single_file_merge (one_single_file_merge rec f) f =
        { run_id := (nanoporeStep (one_single_file_merge rec f).run_id f).1
          metrics := assocSet (one_single_file_merge rec f).metrics k v
          files_processed := (one_single_file_merge rec f).files_processed } := by
      rw [merge_unfold _ f, hp2]
      simp [dictUpdate, hmem]
    refine ⟨?_, by rw [h2], fun n => ?_⟩
    · rw [h2, h1]
      exact assocSet_assocSet _ _ _
    · rw [h1]
      dsimp only
      by_cases hc : rec.files_processed.contains f.name = true
      · rw [if_pos hc]
        exact le_max_left _ _
      · rw [if_neg hc, List.count_append]
        by_cases hn : n = f.name
        · subst hn
          have h0 : List.count f.name rec.files_processed = 0 := by
            rw [List.count_eq_zero]
            intro hmem2
            exact hc (by simpa using hmem2)
          simp [h0]
        · have h0 : List.count n [f.name] = 0 := by
            rw [List.count_eq_zero]
            simp [hn]
          rw [h0]
          simp only [Nat.add_zero]
          exact le_max_left _ _

/-- Claim C1 counterexample: a record whose run identifier is already
resolved (not unknown) has it changed by merging a sample-sheet file
carrying a different protocol run identifier — the sample-sheet branch
overwrites unconditionally. -/
theorem c1_runid_overwritten_by_sample_sheet :
    isUnknownRunId (GeneralRecord.mk (PyVal.vstr "RUNA") [] []).run_id = false ∧
    (one_single_file_merge (GeneralRecord.mk (PyVal.vstr "RUNA") [] [])
        ⟨"sample_sheet_2.csv", ["protocol_run_id,position", "RUNB,1A"]⟩).run_id ≠
      (GeneralRecord.mk (PyVal.vstr "RUNA") [] []).run_id := by
  refine ⟨rfl, ?_⟩
  intro h
  have h2 : PyVal.vstr "RUNB" = PyVal.vstr "RUNA" := h
  have h3 : ("RUNB" : String) = "RUNA" := by injection h2
  exact absurd h3 (by decide)

/-- Claim C1 (amended): once the run identifier is a value other than
unknown, merging a final-summary fragment never changes it; only the
final-summary branch guards on the unknown sentinel, while a sample-sheet
merge overwrites the identifier unconditionally. -/
theorem c1_final_summary_preserves_resolved_run_id (rec : GeneralRecord)
    (f : PyFile) (hf : is_nanopore_file f = some NanoType.final_summary)
    (hr : isUnknownRunId rec.run_id = false) :
    (one_single_file_merge rec f).run_id = rec.run_id := by
  rw [merge_run_id_eq]
  simp [nanoporeStep, hf, finalSummaryStep, hr]

theorem c1_final_summary_preserves_resolved_run_id_witness :
    is_nanopore_file ⟨"final_summary_x.txt", ["protocol_run_id=OTHER"]⟩ =
      some NanoType.final_summary ∧
    isUnknownRunId (GeneralRecord.mk (PyVal.vstr "RUN77") [] []).run_id = false ∧
    (one_single_file_merge (GeneralRecord.mk (PyVal.vstr "RUN77") [] [])
        ⟨"final_summary_x.txt", ["protocol_run_id=OTHER"]⟩).run_id =
      PyVal.vstr "RUN77" :=
  ⟨by decide, rfl,
   c1_final_summary_preserves_resolved_run_id
     (GeneralRecord.mk (PyVal.vstr "RUN77") [] [])
     ⟨"final_summary_x.txt", ["protocol_run_id=OTHER"]⟩ (by decide) rfl⟩

/-! C5: the ordered classification registry -/

theorem detectAux_spec (f : PyFile) (l : List (FormatId × (PyFile → Bool))) :
    ((∀ e ∈ l, e.2 f = false) → detectAux f l = none) ∧
    (∀ i (hi : i < l.length), (l.get ⟨i, hi⟩).2 f = true →
      ∃ j, ∃ hj : j < l.length, j ≤ i ∧ (l.get ⟨j, hj⟩).2 f = true ∧
        (∀ e ∈ l.take j, e.2 f = false) ∧
        detectAux f l = some (l.get ⟨j, hj⟩).1) := by
  induction l with
  | nil =>
    refine ⟨fun _ => rfl, fun i hi => ?_⟩
    simp at hi
  | cons e rest ih =>
    constructor
    · intro hall
      have he := hall e (by simp)
      have hrest := ih.1 fun x hx => hall x (by simp [hx])
      simp [detectAux, he, hrest]
    · intro i hi hmatch
      by_cases he : e.2 f = true
      · exact ⟨0, by simp, Nat.zero_le i, by simpa using he, by simp,
          by simp [detectAux, he]⟩
      · have heb : e.2 f = false := by
          cases hb : e.2 f
          · rfl
          · exact absurd hb he
        cases i with
        | zero =>
          rw [show (e :: rest).get ⟨0, hi⟩ = e from rfl] at hmatch
          exact absurd hmatch he
        | succ i2 =>
          have hi2 : i2 < rest.length := by simpa using hi
          have hm2 : (rest.get ⟨i2, hi2⟩).2 f = true := by
            simpa using hmatch
          obtain ⟨j, hj, hle, hm, htake, hd⟩ := ih.2 i2 hi2 hm2
          refine ⟨j + 1, by simpa using hj, by omega, by simpa using hm,
            ?_, by simp [detectAux, heb, hd]⟩
          intro x hx
          rw [List.take_succ_cons] at hx
          rcases List.mem_cons.mp hx with hx | hx
          · rw [hx]; exact heb
          · exact htake x hx

/-- Claim C5: predicates are evaluated in registration order; the first
match fixes the returned format identifier (so with several matching
predicates the first registered wins, with no scoring or backtracking),
and when no predicate matches the classification is null. -/
theorem c5_classifier_first_match (f : PyFile) :
    ((∀ e ∈ EXTRACTORS, e.2 f = false) → detect_file_type f = none) ∧
    (∀ i (hi : i < EXTRACTORS.length), (EXTRACTORS.get ⟨i, hi⟩).2 f = true →
      ∃ j, ∃ hj : j < EXTRACTORS.length, j ≤ i ∧
        (EXTRACTORS.get ⟨j, hj⟩).2 f = true ∧
        (∀ e ∈ EXTRACTORS.take j, e.2 f = false) ∧
        detect_file_type f = some (EXTRACTORS.get ⟨j, hj⟩).1) :=
  detectAux_spec f EXTRACTORS

/-- A file whose content satisfies both the BeadStudio heuristic
(keyword in the 20-line prefix) and the FM-Generation heuristic
(Instrument Name in the first line). -/
def mixedHeuristicsFile : PyFile :=
  ⟨"mix.csv", "Instrument Name,beadstudio" :: List.replicate 19 "pad"⟩

theorem c5_classifier_first_match_witness :
    ∃ j, ∃ hj : j < EXTRACTORS.length, j ≤ 2 ∧
      (EXTRACTORS.get ⟨j, hj⟩).2 mixedHeuristicsFile = true ∧
      (∀ e ∈ EXTRACTORS.take j, e.2 mixedHeuristicsFile = false) ∧
      detect_file_type mixedHeuristicsFile =
        some (EXTRACTORS.get ⟨j, hj⟩).1 :=
  (c5_classifier_first_match mixedHeuristicsFile).2 2 (by decide) (by decide)

/-! C6: per-extractor validation behaviour of the single-file entry points -/

/-- Claim C6 counterexample: the NanoDrop entry point never consults its
own validation predicate: a file the predicate rejects (wrong extension)
still produces a normalised record. -/
theorem c6_nanodrop_skips_validation :
    is_nanodrop_export
        ⟨"nanodrop_export.tsv",
         ["Sample.ID,ng.ul,260.280,260.230", "S1,50,1.85,2.1"]⟩ = false ∧
    (nanodrop_one_single_file
        ⟨"nanodrop_export.tsv",
         ["Sample.ID,ng.ul,260.280,260.230", "S1,50,1.85,2.1"]⟩).isOk = true :=
  ⟨by decide, by decide⟩

/-- Claim C6 (amended): the BeadStudio entry point re-validates and fails
with an invalid-format error whenever its predicate is false; the
nanopore entry point does not raise on a rejected file but merges
nothing (the record is returned unchanged); the NanoDrop entry point
performs no re-validation at all and produces a record for any readable
table carrying the four QC columns, regardless of its predicate. -/
theorem c6_validation_behavior_by_extractor :
    (∀ f : PyFile, is_beadstudio_file f = false →
      ∃ e, beadstudio_one_single_file f = Except.error e) ∧
    (∀ (rec : GeneralRecord) (f : PyFile), is_nanopore_file f = none →
      one_single_file_merge rec f = rec) ∧
    (∀ f : PyFile, ∀ header rows, pyReadCsv f.lines = some (header, rows) →
      nanodropRequired.all (header.contains ·) = true →
      ∃ r, nanodrop_one_single_file f = Except.ok r ∧
        r.total_samples = rows.length) := by
  refine ⟨fun f h => ?_, fun rec f h => ?_, fun f header rows h hall => ?_⟩
  · have hres : beadstudio_one_single_file f =
        Except.error
          ("Process aborted: " ++ f.name ++ " is not a valid BeadStudio file.") := by
      unfold beadstudio_one_single_file
      simp [h]
    exact ⟨_, hres⟩
  · have hp : (nanoporeStep rec.run_id f).2 = [] := by simp [nanoporeStep, h]
    have hr : (nanoporeStep rec.run_id f).1 = rec.run_id := by
      simp [nanoporeStep, h]
    rw [merge_unfold, hp, hr]
    rfl
  · refine ⟨{ file_name := f.name
              total_samples := rows.length
              samples := rows.map fun r =>
                (nanodropRequired.zip nanodropRenamed).map fun p =>
                  (p.2, r.getD (header.findIdx (· = p.1)) "") }, ?_, rfl⟩
    unfold nanodrop_one_single_file
    rw [h]
    have hmem : ∀ x ∈ nanodropRequired, header.contains x = true :=
      fun x hx => List.all_eq_true.mp hall x hx
    simp only [List.all_eq_true]
    rw [if_pos hmem]

theorem c6_validation_behavior_by_extractor_witness :
    (∃ e, beadstudio_one_single_file ⟨"array_export.csv", ["Header only"]⟩ =
      Except.error e) ∧
    one_single_file_merge initialGeneralRecord ⟨"notes.docx", ["hello"]⟩ =
      initialGeneralRecord ∧
    (∃ r, nanodrop_one_single_file
        ⟨"nanodrop_export.tsv",
         ["Sample.ID,ng.ul,260.280,260.230", "S1,50,1.85,2.1"]⟩ =
        Except.ok r ∧ r.total_samples = 1) := by
  refine ⟨c6_validation_behavior_by_extractor.1 _ (by decide),
    c6_validation_behavior_by_extractor.2.1 _ _ (by decide), ?_⟩
  obtain ⟨r, hr, ht⟩ := c6_validation_behavior_by_extractor.2.2
    ⟨"nanodrop_export.tsv",
     ["Sample.ID,ng.ul,260.280,260.230", "S1,50,1.85,2.1"]⟩
    ["Sample.ID", "ng.ul", "260.280", "260.230"]
    [["S1", "50", "1.85", "2.1"]] (by decide) (by decide)
  exact ⟨r, hr, ht⟩

/-! C7: locating a named section -/

theorem take_bracketEndOffset (l : List String) :
    l.take (bracketEndOffset l) = l.takeWhile (fun s => ¬ myStartsWith s "[") := by
  induction l with
  | nil => rfl
  | cons x xs ih =>
    cases h : myStartsWith x "[" with
    | true => simp [bracketEndOffset, h, List.takeWhile_cons]
    | false =>
      have hoff : bracketEndOffset (x :: xs) = bracketEndOffset xs + 1 := by
        simp [bracketEndOffset, h, Nat.add_comm]
      rw [hoff, List.take_succ_cons, ih]
      simp [List.takeWhile_cons, h]

theorem locateSectionStart_none (lines : List String) (name : String)
    (h : ∀ l ∈ lines, myStartsWith l name = false) :
    locateSectionStart lines name = none := by
  induction lines with
  | nil => rfl
  | cons x xs ih =>
    have hx := h x (by simp)
    have hr := ih fun l hl => h l (by simp [hl])
    simp [locateSectionStart, hx, hr]

theorem locateSectionStart_first (lines : List String) (name : String) :
    ∀ (i : Nat) (hi : i < lines.length),
      (∀ x ∈ lines.take i, myStartsWith x name = false) →
      myStartsWith (lines.get ⟨i, hi⟩) name = true →
      locateSectionStart lines name = some i := by
  induction lines with
  | nil => intro i hi; simp at hi
  | cons x xs ih =>
    intro i hi htake hp
    cases i with
    | zero =>
      have hx : myStartsWith x name = true := by simpa using hp
      simp [locateSectionStart, hx]
    | succ i2 =>
      have hx : myStartsWith x name = false :=
        htake x (by simp [List.take_succ_cons])
      have hi2 : i2 < xs.length := by simpa using hi
      have htake2 : ∀ y ∈ xs.take i2, myStartsWith y name = false := by
        intro y hy
        exact htake y (by simp [List.take_succ_cons, hy])
      have hp2 : myStartsWith (xs.get ⟨i2, hi2⟩) name = true := by simpa using hp
      simp [locateSectionStart, hx, ih i2 hi2 htake2 hp2]

/-- Claim C7 counterexample: when no line starts with the marker, the
Illumina section locator returns an empty table instead of failing with
a section-not-found error. -/
theorem c7_illumina_missing_section_returns_empty :
    illumina_get_csv_section ⟨"sheet.csv", ["a,b", "1,2"]⟩ "[Header]" =
      Except.ok ([], []) ∧
    illumina_get_csv_section ⟨"sheet.csv", ["a,b", "1,2"]⟩ "[Header]" ≠
      Except.error CsvSectionError.sectionNotFound := by
  refine ⟨rfl, ?_⟩
  intro h
  rw [show illumina_get_csv_section ⟨"sheet.csv", ["a,b", "1,2"]⟩ "[Header]" =
      Except.ok ([], []) from rfl] at h
  simp at h

/-- Claim C7 (amended): with no line starting with the marker, the
BeadStudio locator fails with a section-not-found error while the
Illumina locator returns an empty table; in both, a located section's
content runs from the line after the first marker line up to (excluding)
the next line starting with a bracket, or the end of the file. -/
theorem c7_section_location_behavior (f : PyFile) (name : String) :
    ((∀ l ∈ f.lines, myStartsWith l name = false) →
      get_csv_section f name = Except.error CsvSectionError.sectionNotFound ∧
      illumina_get_csv_section f name = Except.ok ([], [])) ∧
    (∀ (i : Nat) (hi : i < f.lines.length),
      (∀ x ∈ f.lines.take i, myStartsWith x name = false) →
      myStartsWith (f.lines.get ⟨i, hi⟩) name = true →
      sectionLines f.lines name =
        some ((f.lines.drop (i + 1)).takeWhile (fun l => ¬ myStartsWith l "["))) := by
  constructor
  · intro h
    have hloc := locateSectionStart_none f.lines name h
    constructor
    · unfold get_csv_section sectionLines
      rw [hloc]
    · unfold illumina_get_csv_section sectionLines
      rw [hloc]
  · intro i hi htake hp
    have hloc := locateSectionStart_first f.lines name i hi htake hp
    unfold sectionLines
    rw [hloc]
    simp [take_bracketEndOffset]

theorem c7_section_location_behavior_witness :
    (get_csv_section ⟨"s.csv", ["x,y", "1,2"]⟩ "[Header]" =
        Except.error CsvSectionError.sectionNotFound ∧
      illumina_get_csv_section ⟨"s.csv", ["x,y", "1,2"]⟩ "[Header]" =
        Except.ok ([], [])) ∧
    sectionLines ["Title,Report", "[Header]", "a,b", "k,v", "[Data]", "r,s"]
        "[Header]" =
      some (((["Title,Report", "[Header]", "a,b", "k,v", "[Data]", "r,s"] :
          List String).drop 2).takeWhile (fun l => ¬ myStartsWith l "[")) :=
  ⟨(c7_section_location_behavior ⟨"s.csv", ["x,y", "1,2"]⟩ "[Header]").1
      (by decide),
   (c7_section_location_behavior
      ⟨"runs.csv", ["Title,Report", "[Header]", "a,b", "k,v", "[Data]", "r,s"]⟩
      "[Header]").2 1 (by decide) (by decide) (by decide)⟩

/-! C4: the bracket-section decoder -/

/-- The successfully decoded sections, in file order, with cleaned keys. -/
def decodedSections (clean : String → String) (lines : List String) :
    List (String × SectionVal) :=
  (splitSections lines).filterMap fun pr =>
    (decodeSectionBody pr.2).map fun v => (clean pr.1, v)

theorem assocSet_of_not_mem (m : List (String × α)) (k : String) (v : α)
    (h : k ∉ m.map Prod.fst) : assocSet m k v = m ++ [(k, v)] := by
  induction m with
  | nil => rfl
  | cons kv rest ih =>
    have hk : kv.1 ≠ k := by
      intro he
      exact h (by simp [he])
    simp [assocSet, hk, ih fun hm => h (by simp [hm])]

theorem assocLookup_append (a b : List (String × α)) (k : String) :
    assocLookup (a ++ b) k =
      match assocLookup a k with
      | some v => some v
      | none => assocLookup b k := by
  induction a with
  | nil => simp [assocLookup]
  | cons kv rest ih =>
    by_cases h : kv.1 = k
    · simp [assocLookup, h]
    · simp [assocLookup, h, ih]

theorem assocLookup_of_not_mem (m : List (String × α)) (k : String)
    (h : k ∉ m.map Prod.fst) : assocLookup m k = none := by
  induction m with
  | nil => rfl
  | cons kv rest ih =>
    have hk : kv.1 ≠ k := by
      intro he
      exact h (by simp [he])
    simp [assocLookup, hk, ih fun hm => h (by simp [hm])]

theorem decodeSectionsWith_fold (clean : String → String) :
    ∀ (secs : List (String × List String)) (init : List (String × SectionVal)),
      ((init.map Prod.fst ++
        (secs.filterMap fun pr =>
          (decodeSectionBody pr.2).map fun v => (clean pr.1, v)).map
            Prod.fst).Nodup) →
      secs.foldl
        (fun acc pr =>
          match decodeSectionBody pr.2 with
          | none => acc
          | some v => assocSet acc (clean pr.1) v)
        init =
      init ++ secs.filterMap fun pr =>
        (decodeSectionBody pr.2).map fun v => (clean pr.1, v) := by
  intro secs
  induction secs with
  | nil => intro init _; simp
  | cons s rest ih =>
    intro init hnd
    cases hd : decodeSectionBody s.2 with
    | none =>
      have hnd2 : (init.map Prod.fst ++
          (rest.filterMap fun pr =>
            (decodeSectionBody pr.2).map fun v => (clean pr.1, v)).map
              Prod.fst).Nodup := by
        rw [List.filterMap_cons, hd] at hnd
        simpa using hnd
      simp only [List.foldl_cons, hd, List.filterMap_cons]
      exact ih init hnd2
    | some v =>
      rw [List.filterMap_cons, hd] at hnd
      simp only [Option.map_some', List.map_cons] at hnd
      have hknotin : clean s.1 ∉ init.map Prod.fst := by
        intro hmem
        have := (List.nodup_append.mp (by simpa using hnd)).2.2
        exact this hmem (by simp)
      have hset : assocSet init (clean s.1) v = init ++ [(clean s.1, v)] :=
        assocSet_of_not_mem init (clean s.1) v hknotin
      have hnd3 :
          ((init ++ [(clean s.1, v)]).map Prod.fst ++
            (rest.filterMap fun pr =>
              (decodeSectionBody pr.2).map fun v => (clean pr.1, v)).map
                Prod.fst).Nodup := by
        simpa using hnd
      simp only [List.foldl_cons, hd, hset, List.filterMap_cons,
        Option.map_some']
      rw [ih (init ++ [(clean s.1, v)]) hnd3]
      simp

theorem assocLookup_of_mem_nodup (m : List (String × α)) (k : String) (v : α)
    (hnd : (m.map Prod.fst).Nodup) (hm : (k, v) ∈ m) :
    assocLookup m k = some v := by
  induction m with
  | nil => cases hm
  | cons kv rest ih =>
    have hnd2 : (kv.1 :: rest.map Prod.fst).Nodup := by simpa using hnd
    have hndc := List.nodup_cons.mp hnd2
    rcases List.mem_cons.mp hm with he | hm2
    · rw [← he]
      simp [assocLookup]
    · have hk : kv.1 ≠ k := by
        intro hkk
        have hkm : k ∈ rest.map Prod.fst := by
          simpa using List.mem_map_of_mem Prod.fst hm2
        exact hndc.1 (hkk ▸ hkm)
      simp [assocLookup, hk, ih hndc.2 hm2]

/-- Under distinct cleaned keys, looking up a section's key in the
decoder output returns exactly that section's decode result: present
with its decoded shape on success, absent on failure (the failed section
is omitted while every other section is still decoded). -/
theorem decodeSections_lookup (clean : String → String)
    (init : List (String × SectionVal)) (lines : List String)
    (hnd : (init.map Prod.fst ++
      (splitSections lines).map fun pr => clean pr.1).Nodup) :
    ∀ hdr body, (hdr, body) ∈ splitSections lines →
      assocLookup (decodeSectionsWith clean init lines) (clean hdr) =
        decodeSectionBody body := by
  have hsub :
      ((decodedSections clean lines).map Prod.fst).Sublist
        ((splitSections lines).map fun pr => clean pr.1) := by
    unfold decodedSections
    generalize splitSections lines = secs
    induction secs with
    | nil => simp
    | cons s rest ih =>
      rw [List.filterMap_cons]
      cases hd : decodeSectionBody s.2 with
      | none =>
        simp only [List.map_cons]
        exact ih.cons _
      | some v =>
        simp only [Option.map_some', List.map_cons]
        exact ih.cons₂ _
  have hnd2 : (init.map Prod.fst ++
      (decodedSections clean lines).map Prod.fst).Nodup :=
    (hsub.append_left (init.map Prod.fst)).nodup hnd
  intro hdr body hmem
  have hfold : decodeSectionsWith clean init lines =
      init ++ decodedSections clean lines :=
    decodeSectionsWith_fold clean (splitSections lines) init hnd2
  have hkey_mem : clean hdr ∈ (splitSections lines).map fun pr => clean pr.1 :=
    List.mem_map_of_mem _ hmem
  have hparts := List.nodup_append.mp hnd
  have hinit_none : assocLookup init (clean hdr) = none := by
    apply assocLookup_of_not_mem
    intro hin
    exact hparts.2.2 hin hkey_mem
  rw [hfold, assocLookup_append, hinit_none]
  cases hd : decodeSectionBody body with
  | some v =>
    have hment : (clean hdr, v) ∈ decodedSections clean lines := by
      unfold decodedSections
      exact List.mem_filterMap.mpr ⟨(hdr, body), hmem, by simp [hd]⟩
    have hnodec : ((decodedSections clean lines).map Prod.fst).Nodup :=
      hsub.nodup hparts.2.1
    simpa using assocLookup_of_mem_nodup _ _ _ hnodec hment
  | none =>
    have habs : clean hdr ∉ (decodedSections clean lines).map Prod.fst := by
      intro hin
      obtain ⟨⟨k2, v2⟩, hin2, hk2⟩ := List.mem_map.mp hin
      have hex : ∃ a b, (a, b) ∈ splitSections lines ∧
          decodeSectionBody b = some v2 ∧ clean a = k2 := by
        simpa [decodedSections] using hin2
      obtain ⟨a, b, habm, hdec, hclean⟩ := hex
      have hkeq : clean a = clean hdr := by rw [hclean]; exact hk2
      have hpair : (a, b) = (hdr, body) :=
        List.inj_on_of_nodup_map hparts.2.1 habm hmem hkeq
      have hb : b = body := congrArg Prod.snd hpair
      rw [hb, hd] at hdec
      cases hdec
    simpa using assocLookup_of_not_mem _ _ habs

theorem readCsv_of_noheader (body : List String) (rows : List (List String))
    (h : pyReadCsvNoHeader body = some rows) :
    pyReadCsv body = some (rows.headD [], rows.drop 1) ∧ rows ≠ [] := by
  unfold pyReadCsvNoHeader at h
  unfold pyReadCsv
  cases hf : body.filter (· ≠ "") with
  | nil => rw [hf] at h; cases h
  | cons hl t =>
    rw [hf] at h
    dsimp only at h ⊢
    split at h
    case isTrue hc =>
      have hrows : splitCommas hl ::
          (t.map splitCommas).map (padRow (splitCommas hl).length) = rows := by
        injection h
      constructor
      · rw [if_pos hc, ← hrows]
        rfl
      · rw [← hrows]; simp
    case isFalse hc => cases h

/-- Claim C4: for every bracket-marked section of a report (under
pairwise-distinct cleaned section keys), a decoded column count of
exactly 2 yields an ordered list of singleton pairs, one per data row in
row order; any other column count yields row records with the section's
first row as header; and a section whose decode fails is omitted while
all other sections are still decoded — in both the FM-Generation and
the FM-AutoTilt decoder. -/
theorem c4_decode_all_sections_shapes (f : PyFile)
    (hgen : ((fmGenTopMetadata f.lines).map Prod.fst ++
      (splitSections f.lines).map fun pr => cleanKeyFMGen pr.1).Nodup)
    (htilt : ((splitSections f.lines).map fun pr =>
      cleanKeyFMAutoTilt pr.1).Nodup) :
    ∀ hdr body, (hdr, body) ∈ splitSections f.lines →
      (∀ rows, pyReadCsvNoHeader body = some rows →
        (rows.headD []).length = 2 →
        assocLookup (extract_all_sections_fmgen f) (cleanKeyFMGen hdr) =
          some (SectionVal.pairs
            (rows.map fun r => (pyTrim (r.getD 0 ""), r.getD 1 ""))) ∧
        assocLookup (extract_all_sections_fmautotilt f)
            (cleanKeyFMAutoTilt hdr) =
          some (SectionVal.pairs
            (rows.map fun r => (pyTrim (r.getD 0 ""), r.getD 1 "")))) ∧
      (∀ rows, pyReadCsvNoHeader body = some rows →
        (rows.headD []).length ≠ 2 →
        assocLookup (extract_all_sections_fmgen f) (cleanKeyFMGen hdr) =
          some (SectionVal.table
            ((rows.drop 1).map ((rows.headD []).zip ·))) ∧
        assocLookup (extract_all_sections_fmautotilt f)
            (cleanKeyFMAutoTilt hdr) =
          some (SectionVal.table
            ((rows.drop 1).map ((rows.headD []).zip ·)))) ∧
      (pyReadCsvNoHeader body = none →
        assocLookup (extract_all_sections_fmgen f) (cleanKeyFMGen hdr) =
          none ∧
        assocLookup (extract_all_sections_fmautotilt f)
            (cleanKeyFMAutoTilt hdr) = none) := by
  intro hdr body hmem
  have hg := decodeSections_lookup cleanKeyFMGen (fmGenTopMetadata f.lines)
    f.lines hgen hdr body hmem
  have ht := decodeSections_lookup cleanKeyFMAutoTilt [] f.lines
    (by simpa using htilt) hdr body hmem
  refine ⟨fun rows hrows h2 => ?_, fun rows hrows h2 => ?_, fun hnone => ?_⟩
  · have hne := (readCsv_of_noheader body rows hrows).2
    have hdec : decodeSectionBody body =
        some (SectionVal.pairs
          (rows.map fun r => (pyTrim (r.getD 0 ""), r.getD 1 ""))) := by
      unfold decodeSectionBody
      rw [hrows]
      dsimp only
      rw [if_neg (by simpa [List.isEmpty_iff] using hne), if_pos h2]
    exact ⟨hg.trans hdec, ht.trans hdec⟩
  · obtain ⟨hcsv, hne⟩ := readCsv_of_noheader body rows hrows
    have hdec : decodeSectionBody body =
        some (SectionVal.table
          ((rows.drop 1).map ((rows.headD []).zip ·))) := by
      unfold decodeSectionBody
      rw [hrows]
      dsimp only
      rw [if_neg (by simpa [List.isEmpty_iff] using hne), if_neg h2, hcsv]
    exact ⟨hg.trans hdec, ht.trans hdec⟩
  · have hdec : decodeSectionBody body = none := by
      unfold decodeSectionBody
      rw [hnone]
    exact ⟨hg.trans hdec, ht.trans hdec⟩

/-- A demonstration report with a 2-column section, a 3-column section
and a ragged (undecodable) section. -/
def fmDemoFile : PyFile :=
  ⟨"FM_demo.csv",
   ["[Overall]", "Mean,1.5", "Std,0.2",
    "[Input Table]", "A,B,C", "1,2,3",
    "[Bad]", "1,2", "1,2,3"]⟩

theorem c4_decode_all_sections_shapes_witness :
    assocLookup (extract_all_sections_fmgen fmDemoFile) "overall" =
      some (SectionVal.pairs [("Mean", "1.5"), ("Std", "0.2")]) ∧
    assocLookup (extract_all_sections_fmautotilt fmDemoFile) "input_table" =
      some (SectionVal.table [[("A", "1"), ("B", "2"), ("C", "3")]]) ∧
    assocLookup (extract_all_sections_fmgen fmDemoFile) "bad" = none := by
  refine ⟨?_, ?_, ?_⟩
  · exact ((c4_decode_all_sections_shapes fmDemoFile (by decide) (by decide)
      "[Overall]" ["Mean,1.5", "Std,0.2"] (by decide)).1
      [["Mean", "1.5"], ["Std", "0.2"]] (by decide) (by decide)).1
  · exact ((c4_decode_all_sections_shapes fmDemoFile (by decide) (by decide)
      "[Input Table]" ["A,B,C", "1,2,3"] (by decide)).2.1
      [["A", "B", "C"], ["1", "2", "3"]] (by decide) (by decide)).2
  · exact ((c4_decode_all_sections_shapes fmDemoFile (by decide) (by decide)
      "[Bad]" ["1,2", "1,2,3"] (by decide)).2.2 (by decide)).1

/-! C3: the sequencing-summary aggregation -/

theorem lexLeB_total : ∀ a b : List Char, lexLeB a b = true ∨ lexLeB b a = true := by
  intro a
  induction a with
  | nil => intro b; exact Or.inl rfl
  | cons x xs ih =>
    intro b
    cases b with
    | nil => exact Or.inr rfl
    | cons y ys =>
      by_cases hxy : x = y
      · subst hxy
        simpa [lexLeB] using ih ys
      · rcases lt_trichotomy x y with h | h | h
        · left
          simp only [lexLeB, if_neg hxy]
          exact decide_eq_true h
        · exact absurd h hxy
        · right
          simp only [lexLeB, if_neg (Ne.symm hxy)]
          exact decide_eq_true h

theorem lexLeB_trans : ∀ a b c : List Char,
    lexLeB a b = true → lexLeB b c = true → lexLeB a c = true := by
  intro a
  induction a with
  | nil => intro b c _ _; rfl
  | cons x xs ih =>
    intro b c hab hbc
    cases b with
    | nil => simp [lexLeB] at hab
    | cons y ys =>
      cases c with
      | nil => simp [lexLeB] at hbc
      | cons z zs =>
        by_cases hxy : x = y
        · subst hxy
          by_cases hxz : x = z
          · subst hxz
            simp only [lexLeB, if_pos rfl] at hab hbc ⊢
            exact ih ys zs hab hbc
          · by_cases hyz : x = z
            · exact absurd hyz hxz
            · simp only [lexLeB, if_pos rfl] at hab
              simp only [lexLeB, if_neg hxz] at hbc ⊢
              exact hbc
        · by_cases hyz : y = z
          · subst hyz
            simp only [lexLeB, if_neg hxy] at hab ⊢
            exact hab
          · have h1 : x < y := of_decide_eq_true (by
              simpa only [lexLeB, if_neg hxy] using hab)
            have h2 : y < z := of_decide_eq_true (by
              simpa only [lexLeB, if_neg hyz] using hbc)
            by_cases hxz : x = z
            · subst hxz
              exact absurd h2 (lt_asymm h1)
            · simp only [lexLeB, if_neg hxz]
              exact decide_eq_true (lt_trans h1 h2)

instance : IsTotal String strLe := ⟨fun a b => lexLeB_total a.data b.data⟩

instance : IsTrans String strLe :=
  ⟨fun a b c hab hbc => lexLeB_trans a.data b.data c.data hab hbc⟩

/-- Python sorted(list(set(l))): an ascending, duplicate-free sequence
with exactly the elements of l. -/
theorem sortedUnique_spec (l : List String) :
    List.Sorted strLe (sortedUnique l) ∧ (sortedUnique l).Nodup ∧
      ∀ s, s ∈ sortedUnique l ↔ s ∈ l := by
  refine ⟨List.sorted_insertionSort strLe l.dedup, ?_, fun s => ?_⟩
  · show (List.insertionSort strLe l.dedup).Nodup
    exact (List.perm_insertionSort strLe l.dedup).symm.nodup (List.nodup_dedup l)
  · show s ∈ List.insertionSort strLe l.dedup ↔ s ∈ l
    rw [(List.perm_insertionSort strLe l.dedup).mem_iff, List.mem_dedup]

theorem assocLookup_mem (m : List (String × α)) (k : String) (v : α)
    (h : assocLookup m k = some v) : (k, v) ∈ m := by
  induction m with
  | nil => cases h
  | cons kv rest ih =>
    by_cases hk : kv.1 = k
    · simp only [assocLookup, if_pos hk] at h
      have hv : v = kv.2 := (Option.some_inj.mp h).symm
      rw [← hk, hv]
      exact List.mem_cons_self _ _
    · simp only [assocLookup, if_neg hk] at h
      exact List.mem_cons_of_mem _ (ih h)

theorem mem_assocSet (m : List (String × α)) (k : String) (v : α)
    (p : String × α) (h : p ∈ assocSet m k v) : p ∈ m ∨ p.2 = v := by
  induction m with
  | nil =>
    simp only [assocSet] at h
    rcases List.mem_singleton.mp h with he
    exact Or.inr (by rw [he])
  | cons kv rest ih =>
    by_cases hk : kv.1 = k
    · simp only [assocSet, if_pos hk] at h
      rcases List.mem_cons.mp h with he | hm
      · exact Or.inr (by rw [he])
      · exact Or.inl (List.mem_cons_of_mem _ hm)
    · simp only [assocSet, if_neg hk] at h
      rcases List.mem_cons.mp h with he | hm
      · exact Or.inl (by rw [he]; exact List.mem_cons_self _ _)
      · rcases ih hm with hm2 | hv
        · exact Or.inl (List.mem_cons_of_mem _ hm2)
        · exact Or.inr hv

theorem zipFold_values_some :
    ∀ (pairs : List (String × String)) (m : List (String × Option String)),
      (∀ p ∈ m, p.2.isSome = true) →
      ∀ p ∈ pairs.foldl (fun acc kv => assocSet acc kv.1 (some kv.2)) m,
        p.2.isSome = true := by
  intro pairs
  induction pairs with
  | nil => intro m hm; simpa using hm
  | cons kv rest ih =>
    intro m hm
    simp only [List.foldl_cons]
    apply ih
    intro p hp
    rcases mem_assocSet m kv.1 (some kv.2) p hp with hm2 | hv
    · exact hm p hm2
    · rw [hv]; rfl

/-- In a full row (as many fields as fieldnames) no dictionary value is
the missing-value None. -/
theorem dictReaderRow_no_none (fieldnames row : List String)
    (hlen : row.length = fieldnames.length) (k : String) :
    assocLookup (dictReaderRow fieldnames row) k ≠ some none := by
  intro h
  have hdrop : fieldnames.drop row.length = [] := by
    rw [hlen]
    exact List.drop_length _
  have hrow : dictReaderRow fieldnames row =
      (fieldnames.zip row).foldl (fun acc kv => assocSet acc kv.1 (some kv.2)) [] := by
    unfold dictReaderRow
    rw [hdrop]
    rfl
  rw [hrow] at h
  have hmem := assocLookup_mem _ _ _ h
  have := zipFold_values_some (fieldnames.zip row) [] (by simp) _ hmem
  cases this

theorem seqFlagVal_ne_none (fieldnames row : List String)
    (hlen : row.length = fieldnames.length) :
    seqFlagVal fieldnames row ≠ none := by
  unfold seqFlagVal
  cases h : assocLookup (dictReaderRow fieldnames row) "passes_filtering" with
  | none => simp
  | some o =>
    cases o with
    | none => exact absurd h (dictReaderRow_no_none fieldnames row hlen _)
    | some v => simp

theorem seqAddIf_toList (fieldnames row : List String) (key : String)
    (l : List String) :
    seqAddIf fieldnames row key l = l ++ (seqCollect fieldnames row key).toList := by
  unfold seqAddIf seqCollect
  cases h : assocLookup (dictReaderRow fieldnames row) key with
  | none => simp
  | some o =>
    cases o with
    | none => simp
    | some v => by_cases hv : v ≠ "" <;> simp [hv]

/-- One pass of the sequencing-summary loop over complete rows: the
totals and collections accumulate exactly as the claim describes. -/
theorem seqFold_spec (fieldnames : List String) :
    ∀ (rows : List (List String)) (st : SeqState),
      (∀ r ∈ rows, seqFlagVal fieldnames r ≠ none) →
      seqFold fieldnames rows st = some
        { total := st.total + rows.length
          passed := st.passed + rows.countP
            (fun r => pyUpper ((seqFlagVal fieldnames r).getD "") = "TRUE")
          qsum := st.qsum + (rows.map (seqQContrib fieldnames)).sum
          samples := st.samples ++
            rows.filterMap (fun r => seqCollect fieldnames r "sample_id")
          experiments := st.experiments ++
            rows.filterMap (fun r => seqCollect fieldnames r "experiment_id")
          runids := st.runids ++
            rows.filterMap (fun r => seqCollect fieldnames r "run_id")
          pores := st.pores ++
            rows.filterMap (fun r => seqCollect fieldnames r "pore_type") } := by
  intro rows
  induction rows with
  | nil => intro st _; simp [seqFold]
  | cons r rest ih =>
    intro st hok
    have hflag : seqFlagVal fieldnames r ≠ none := hok r (by simp)
    cases hf : seqFlagVal fieldnames r with
    | none => exact absurd hf hflag
    | some pfs =>
      have hstep : seqStep fieldnames st r = some
          { total := st.total + 1
            passed := st.passed + (if pyUpper pfs = "TRUE" then 1 else 0)
            qsum := st.qsum + seqQContrib fieldnames r
            samples := st.samples ++ (seqCollect fieldnames r "sample_id").toList
            experiments := st.experiments ++
              (seqCollect fieldnames r "experiment_id").toList
            runids := st.runids ++ (seqCollect fieldnames r "run_id").toList
            pores := st.pores ++ (seqCollect fieldnames r "pore_type").toList } := by
        unfold seqStep
        rw [hf, seqAddIf_toList, seqAddIf_toList, seqAddIf_toList, seqAddIf_toList]
      have hx : ∀ x ∈ rest, seqFlagVal fieldnames x ≠ none :=
        fun x hxm => hok x (by simp [hxm])
      unfold seqFold
      rw [hstep]
      dsimp only
      rw [ih _ hx]
      congr 1
      simp only [SeqState.mk.injEq]
      refine ⟨?_, ?_, ?_, ?_, ?_, ?_, ?_⟩
      · simp only [List.length_cons]
        omega
      · by_cases hT : pyUpper pfs = "TRUE" <;>
          (simp [List.countP_cons, hf, hT]; try omega)
      · simp only [List.map_cons, List.sum_cons]
        ring
      · rw [List.filterMap_cons]
        cases hc : seqCollect fieldnames r "sample_id" <;> simp [hc]
      · rw [List.filterMap_cons]
        cases hc : seqCollect fieldnames r "experiment_id" <;> simp [hc]
      · rw [List.filterMap_cons]
        cases hc : seqCollect fieldnames r "run_id" <;> simp [hc]
      · rw [List.filterMap_cons]
        cases hc : seqCollect fieldnames r "pore_type" <;> simp [hc]

/-- An ascending, duplicate-free sequence carrying exactly the given
collected identifiers. -/
def isSortedSetOf (out collected : List String) : Prop :=
  List.Sorted strLe out ∧ out.Nodup ∧ ∀ s, s ∈ out ↔ s ∈ collected

/-- Claim C3 (amended): over a table whose data rows are as wide as the
header, the aggregation counts every data row, counts the rows whose
filtering flag uppercases to TRUE, sets the mean quality score to the
accumulated sum divided by the row count rounded to two decimal places
(zero when there are no rows, with missing or non-numeric scores
contributing zero), and produces the four identifier sets as sorted,
deduplicated sequences of the collected values. -/
theorem c3_sequencing_summary_aggregation (f : PyFile)
    (hlen : ∀ r ∈ seqDataRows f, r.length = (seqFieldnames f).length) :
    ∃ m, extract_metadata_from_Sequencing_txt f = some m ∧
      m.total_reads = (seqDataRows f).length ∧
      m.passed_filtering_count = (seqDataRows f).countP
        (fun r => pyUpper ((seqFlagVal (seqFieldnames f) r).getD "") = "TRUE") ∧
      m.mean_qscore =
        (if (seqDataRows f).length = 0 then 0
         else pyRound2
           ((((seqDataRows f).map (seqQContrib (seqFieldnames f))).sum) /
             ((seqDataRows f).length : ℚ))) ∧
      isSortedSetOf m.unique_samples
        ((seqDataRows f).filterMap fun r =>
          seqCollect (seqFieldnames f) r "sample_id") ∧
      isSortedSetOf m.unique_experiments
        ((seqDataRows f).filterMap fun r =>
          seqCollect (seqFieldnames f) r "experiment_id") ∧
      isSortedSetOf m.unique_run_ids
        ((seqDataRows f).filterMap fun r =>
          seqCollect (seqFieldnames f) r "run_id") ∧
      isSortedSetOf m.pore_types
        ((seqDataRows f).filterMap fun r =>
          seqCollect (seqFieldnames f) r "pore_type") := by
  have hok : ∀ r ∈ seqDataRows f, seqFlagVal (seqFieldnames f) r ≠ none :=
    fun r hr => seqFlagVal_ne_none _ _ (hlen r hr)
  have hfold := seqFold_spec (seqFieldnames f) (seqDataRows f)
    ⟨0, 0, 0, [], [], [], []⟩ hok
  unfold extract_metadata_from_Sequencing_txt
  rw [hfold]
  dsimp only
  refine ⟨_, rfl, by simp, by simp, ?_, ?_, ?_, ?_, ?_⟩
  · by_cases hz : (seqDataRows f).length = 0
    · simp [hz]
    · rw [if_neg hz, if_pos (by omega : 0 + (seqDataRows f).length > 0)]
      simp
  · exact sortedUnique_spec _
  · exact sortedUnique_spec _
  · exact sortedUnique_spec _
  · exact sortedUnique_spec _

/-- Claim C3 counterexample: the mean quality score is not the plain
quotient of the accumulated sum by the read count — the code rounds it to
two decimal places, so scores summing to 1 over 3 reads give 0.33, not
one third. -/
theorem c3_mean_qscore_is_rounded :
    ((extract_metadata_from_Sequencing_txt
        ⟨"sequencing_summary_round.txt",
         ["mean_qscore_template\tpasses_filtering",
          "1\tTRUE", "0\tTRUE", "0\tFALSE"]⟩).map fun m => m.total_reads) =
      some 3 ∧
    ((extract_metadata_from_Sequencing_txt
        ⟨"sequencing_summary_round.txt",
         ["mean_qscore_template\tpasses_filtering",
          "1\tTRUE", "0\tTRUE", "0\tFALSE"]⟩).map fun m => m.mean_qscore) =
      some (33/100 : ℚ) ∧
    (33/100 : ℚ) ≠ (1 + 0 + 0 : ℚ)/3 := by
  refine ⟨by with_unfolding_all decide, by with_unfolding_all decide, by norm_num⟩

/-- The end-to-end table of the claim: 3 rows, 2 passing, scores 10, 12
and 14. -/
def seqDemoFile : PyFile :=
  ⟨"sequencing_summary_demo.txt",
   ["filename\tpasses_filtering\tmean_qscore_template",
    "r1\tTRUE\t10", "r2\tTRUE\t12", "r3\tFALSE\t14"]⟩

theorem c3_sequencing_summary_aggregation_witness :
    ∃ m, extract_metadata_from_Sequencing_txt seqDemoFile = some m ∧
      m.total_reads = 3 ∧ m.passed_filtering_count = 2 ∧
      m.mean_qscore = 12 := by
  obtain ⟨m, hm, ht, hp, hq, _⟩ :=
    c3_sequencing_summary_aggregation seqDemoFile (by decide)
  refine ⟨m, hm, ?_, ?_, ?_⟩
  · rw [ht]
    decide
  · rw [hp]
    with_unfolding_all decide
  · rw [hq]
    with_unfolding_all decide

/-! C8: lenient date ordering of the sample history -/

/-- Claim C8: the history sort is a permutation (no entry dropped),
ascending in the lenient date key; a strictly smaller key always sits at
a strictly earlier position; the four patterns are attempted in the fixed
order (a string matching both slash patterns resolves as month first);
and unrecognised or missing dates collapse to the minimum representable
date, which sorts before any parseable date such as 2024-01-19. -/
theorem c8_history_sort_lenient_dates :
    (∀ l : List HistoryEntry, (sortHistory l).Perm l) ∧
    (∀ l : List HistoryEntry, List.Sorted historyLe (sortHistory l)) ∧
    (∀ (l : List HistoryEntry) (i j : Fin (sortHistory l).length),
      entryDateKey ((sortHistory l).get i) <
        entryDateKey ((sortHistory l).get j) → (i : ℕ) < (j : ℕ)) ∧
    parse_flexible_date "2024-01-19" = encodeDate 2024 1 19 ∧
    parse_flexible_date "20240119" = encodeDate 2024 1 19 ∧
    parse_flexible_date "01/02/2024" = encodeDate 2024 1 2 ∧
    parse_flexible_date "19/01/2024" = encodeDate 2024 1 19 ∧
    parse_flexible_date "Jan 19, 2024" = datetimeMin ∧
    parse_flexible_date "N/A" = datetimeMin ∧
    parse_flexible_date "" = datetimeMin ∧
    (∀ e : HistoryEntry, assocLookup e.extraction_metadata "date" = none →
      entryDateKey e = datetimeMin) ∧
    datetimeMin < parse_flexible_date "2024-01-19" := by
  refine ⟨fun l => List.perm_insertionSort historyLe l,
    fun l => List.sorted_insertionSort historyLe l,
    fun l i j hlt => ?_, by decide, by decide, by decide, by decide,
    by decide, by decide, by decide, fun e he => ?_, by decide⟩
  · by_contra hij
    rcases Nat.lt_or_ge (j : ℕ) (i : ℕ) with hji | hji
    · have hle : historyLe ((sortHistory l).get j) ((sortHistory l).get i) :=
        (List.sorted_insertionSort historyLe l).rel_get_of_lt hji
      exact absurd hlt (not_lt.mpr hle)
    · have hv : i = j := Fin.ext (by omega)
      rw [hv] at hlt
      exact lt_irrefl _ hlt
  · unfold entryDateKey
    rw [he]
    rfl

def histDatedEntry : HistoryEntry :=
  { source_file := some "a.json"
    file_type := some "BeadStudio"
    extraction_metadata := [("date", "2024-01-19")]
    manifest_id := none
    sample_details := [] }

def histGarbledEntry : HistoryEntry :=
  { source_file := some "b.json"
    file_type := some "Thermal Report"
    extraction_metadata := [("date", "sometime in 2024")]
    manifest_id := none
    sample_details := [] }

def histUndatedEntry : HistoryEntry :=
  { source_file := some "c.json"
    file_type := some "FM-AutoTilt Report"
    extraction_metadata := [("side", "A")]
    manifest_id := none
    sample_details := [] }

theorem c8_history_sort_lenient_dates_witness :
    (sortHistory [histDatedEntry, histGarbledEntry]).Perm
      [histDatedEntry, histGarbledEntry] ∧
    (0 : ℕ) < 1 ∧
    entryDateKey histUndatedEntry = datetimeMin := by
  refine ⟨c8_history_sort_lenient_dates.1 [histDatedEntry, histGarbledEntry],
    ?_, ?_⟩
  · exact c8_history_sort_lenient_dates.2.2.1
      [histDatedEntry, histGarbledEntry] ⟨0, by decide⟩ ⟨1, by decide⟩
      (by decide)
  · exact c8_history_sort_lenient_dates.2.2.2.2.2.2.2.2.2.2.1
      histUndatedEntry rfl

/-! C9: the sample-history reconciler output -/

theorem mem_allHistoryMatches (records : List NormalizedRecord)
    (target : String) (e : RawHistoryEntry) :
    e ∈ allHistoryMatches records target ↔
      ∃ r ∈ records, ∃ row ∈ r.samples,
        sampleMatches target row = true ∧ mkHistoryEntry r row = e := by
  unfold allHistoryMatches
  constructor
  · intro he
    rw [List.mem_flatten] at he
    obtain ⟨l, hl, hel⟩ := he
    rw [List.mem_map] at hl
    obtain ⟨r, hr, rfl⟩ := hl
    rw [List.mem_map] at hel
    obtain ⟨row, hrowf, hmk⟩ := hel
    rw [List.mem_filter] at hrowf
    exact ⟨r, hr, row, hrowf.1, hrowf.2, hmk⟩
  · rintro ⟨r, hr, row, hrow, hm, hmk⟩
    rw [List.mem_flatten]
    refine ⟨_, List.mem_map_of_mem _ hr, ?_⟩
    rw [← hmk]
    exact List.mem_map_of_mem _ (List.mem_filter.mpr ⟨hrow, hm⟩)

theorem sealHistory_some_of_all (l : List RawHistoryEntry)
    (h : ∀ e ∈ l, e.extraction_metadata ≠ none) :
    ∃ hs, sealHistory l = some hs := by
  induction l with
  | nil => exact ⟨[], rfl⟩
  | cons e es ih =>
    obtain ⟨hs, hhs⟩ := ih fun x hx => h x (List.mem_cons_of_mem _ hx)
    obtain ⟨m, hm⟩ :=
      Option.ne_none_iff_exists'.mp (h e (List.mem_cons_self _ _))
    have hse : sealHistoryEntry e ≠ none := by
      unfold sealHistoryEntry
      rw [hm]
      exact fun h0 => by cases h0
    obtain ⟨h1, hh1⟩ := Option.ne_none_iff_exists'.mp hse
    refine ⟨h1 :: hs, ?_⟩
    unfold sealHistory
    rw [hh1, hhs]

theorem sealHistory_none_of_mem (l : List RawHistoryEntry)
    (e : RawHistoryEntry) (hmem : e ∈ l)
    (hnone : e.extraction_metadata = none) : sealHistory l = none := by
  induction l with
  | nil => cases hmem
  | cons x xs ih =>
    rcases List.mem_cons.mp hmem with h1 | h2
    · subst h1
      simp [sealHistory, sealHistoryEntry, hnone]
    · unfold sealHistory
      rw [ih h2]
      cases sealHistoryEntry x <;> rfl

theorem mem_sealHistory (l : List RawHistoryEntry) (hs : List HistoryEntry)
    (hseal : sealHistory l = some hs) (h : HistoryEntry) :
    h ∈ hs ↔ ∃ e ∈ l, sealHistoryEntry e = some h := by
  induction l generalizing hs with
  | nil =>
    simp only [sealHistory, Option.some.injEq] at hseal
    subst hseal
    simp
  | cons x xs ih =>
    unfold sealHistory at hseal
    cases hx : sealHistoryEntry x with
    | none => rw [hx] at hseal; simp at hseal
    | some h0 =>
      rw [hx] at hseal
      cases hxs : sealHistory xs with
      | none => rw [hxs] at hseal; simp at hseal
      | some hs0 =>
        rw [hxs] at hseal
        simp only [Option.some.injEq] at hseal
        subst hseal
        rw [List.mem_cons]
        constructor
        · rintro (rfl | hmem)
          · exact ⟨x, List.mem_cons_self _ _, hx⟩
          · obtain ⟨e, he, hseale⟩ := (ih hs0 hxs).mp hmem
            exact ⟨e, List.mem_cons_of_mem _ he, hseale⟩
        · rintro ⟨e, he, hseale⟩
          rcases List.mem_cons.mp he with rfl | he2
          · left
            rw [hx] at hseale
            exact (Option.some.injEq _ _ ▸ hseale).symm
          · right
            exact (ih hs0 hxs).mpr ⟨e, he2, hseale⟩

def nrecNoMeta : NormalizedRecord :=
  { file_name := some "nanodrop_qc.json"
    file_type := some "Experimental Sample Sheet related to the quality control of the samples before the sequencing step"
    metadata := none
    manifest_id := none
    samples := [[("Sample_ID", some "S1"),
                 ("concentration_ng_ul", some "101.5")]] }

/-- Claim C9 counterexample: a records directory holding one NanoDrop QC
record, persisted without a metadata key, whose row matches the target. The
match exists, yet no history array is written: the sort-key pass fails with
AttributeError instead of terminating normally. -/
theorem c9_missing_metadata_aborts_history :
    sampleMatches "s1" [("Sample_ID", some "S1"),
      ("concentration_ng_ul", some "101.5")] = true ∧
    [("Sample_ID", some "S1"), ("concentration_ng_ul", some "101.5")] ∈
      nrecNoMeta.samples ∧
    get_sample_history [nrecNoMeta] "s1" = Except.error () :=
  ⟨by decide, by decide, rfl⟩

/-- Claim C9 (amended): with no matching row no history file is produced
and the call returns normally, even when some record lacks a metadata
mapping; when at least one row matches and every record whose metadata
mapping is absent has no matching row, exactly one array named after the
target is produced, containing exactly the matching entries in ascending
date order; but when a record lacking a metadata mapping has a matching
row, the sort-key pass fails and the call neither writes a file nor
returns normally. -/
theorem c9_history_output_behavior (records : List NormalizedRecord)
    (target : String) :
    ((∀ r ∈ records, ∀ row ∈ r.samples, sampleMatches target row = false) →
      get_sample_history records target = Except.ok none) ∧
    ((∀ r ∈ records, r.metadata = none →
        ∀ row ∈ r.samples, sampleMatches target row = false) →
      ∀ r ∈ records, ∀ row ∈ r.samples, sampleMatches target row = true →
      ∃ entries, get_sample_history records target =
          Except.ok (some ("History_" ++ target ++ ".json", entries)) ∧
        List.Sorted historyLe entries ∧
        ∃ sealed, sealHistory (allHistoryMatches records target) =
            some sealed ∧ entries.Perm sealed ∧
          (∀ e, e ∈ entries ↔ ∃ raw ∈ allHistoryMatches records target,
            sealHistoryEntry raw = some e)) ∧
    (∀ r ∈ records, r.metadata = none →
      ∀ row ∈ r.samples, sampleMatches target row = true →
      get_sample_history records target = Except.error ()) := by
  refine ⟨?_, ?_, ?_⟩
  · intro hnone
    have hempty : allHistoryMatches records target = [] := by
      unfold allHistoryMatches
      induction records with
      | nil => rfl
      | cons r rest ih =>
        simp only [List.map_cons, List.flatten_cons]
        rw [List.filter_eq_nil_iff.mpr
          (fun row hrow => by simp [hnone r (by simp) row hrow]),
          List.map_nil, List.nil_append]
        exact ih fun r2 hr2 row hrow => hnone r2 (by simp [hr2]) row hrow
    unfold get_sample_history
    rw [hempty]
    rfl
  · intro hmeta r hr row hrow hmatch
    have hall : ∀ e ∈ allHistoryMatches records target,
        e.extraction_metadata ≠ none := by
      intro e he
      obtain ⟨r2, hr2, row2, hrow2, hm2, rfl⟩ :=
        (mem_allHistoryMatches records target e).mp he
      intro h0
      have hf := hmeta r2 hr2 h0 row2 hrow2
      rw [hm2] at hf
      cases hf
    obtain ⟨sealed, hsealed⟩ := sealHistory_some_of_all _ hall
    have hmem : mkHistoryEntry r row ∈ allHistoryMatches records target :=
      (mem_allHistoryMatches records target _).mpr
        ⟨r, hr, row, hrow, hmatch, rfl⟩
    obtain ⟨m, hm⟩ := Option.ne_none_iff_exists'.mp (hall _ hmem)
    have hsmem : sealHistoryEntry (mkHistoryEntry r row) ≠ none := by
      unfold sealHistoryEntry
      rw [hm]
      exact fun h0 => by cases h0
    obtain ⟨h1, hh1⟩ := Option.ne_none_iff_exists'.mp hsmem
    have hinseal : h1 ∈ sealed :=
      (mem_sealHistory _ _ hsealed h1).mpr ⟨_, hmem, hh1⟩
    have hne : sealed ≠ [] := fun h0 => by rw [h0] at hinseal; cases hinseal
    have hperm := List.perm_insertionSort historyLe sealed
    have hsne : sortHistory sealed ≠ [] := by
      intro h0
      have hp2 : ([] : List HistoryEntry).Perm sealed := by
        rw [← h0]
        exact hperm
      exact hne hp2.nil_eq.symm
    refine ⟨sortHistory sealed, ?_,
      List.sorted_insertionSort historyLe sealed, sealed, hsealed, hperm,
      fun e => Iff.trans hperm.mem_iff (mem_sealHistory _ _ hsealed e)⟩
    unfold get_sample_history
    rw [hsealed]
    dsimp only
    rw [if_neg (by simpa [List.isEmpty_iff] using hsne)]
  · intro r hr hmnone row hrow hmatch
    have hmem : mkHistoryEntry r row ∈ allHistoryMatches records target :=
      (mem_allHistoryMatches records target _).mpr
        ⟨r, hr, row, hrow, hmatch, rfl⟩
    have hseal : sealHistory (allHistoryMatches records target) = none :=
      sealHistory_none_of_mem _ _ hmem hmnone
    unfold get_sample_history
    rw [hseal]

def nrecDemo : NormalizedRecord :=
  { file_name := some "chip1.json"
    file_type := some "BeadStudio"
    metadata := some [("date", "2024-01-19")]
    manifest_id := some "Manifest-7"
    samples := [[("Sample_ID", some "S1")], [("Sample_ID", some "S2")]] }

theorem c9_history_output_behavior_witness :
    get_sample_history [nrecDemo] "zz" = Except.ok none ∧
    (∃ entries, get_sample_history [nrecDemo] "s1" =
        Except.ok (some ("History_" ++ "s1" ++ ".json", entries)) ∧
      List.Sorted historyLe entries ∧
      ∃ sealed, sealHistory (allHistoryMatches [nrecDemo] "s1") =
          some sealed ∧ entries.Perm sealed ∧
        (∀ e, e ∈ entries ↔ ∃ raw ∈ allHistoryMatches [nrecDemo] "s1",
          sealHistoryEntry raw = some e)) ∧
    get_sample_history [nrecNoMeta] "s1" = Except.error () :=
  ⟨(c9_history_output_behavior [nrecDemo] "zz").1 (by decide),
    (c9_history_output_behavior [nrecDemo] "s1").2.1 (by decide) nrecDemo
      (by decide) [("Sample_ID", some "S1")] (by decide) (by decide),
    (c9_history_output_behavior [nrecNoMeta] "s1").2.2 nrecNoMeta
      (by decide) rfl
      [("Sample_ID", some "S1"), ("concentration_ng_ul", some "101.5")]
      (by decide) (by decide)⟩

end Lage
